import Mathlib

/-!
Verification development for the tinycss CSS parser.

This file gives a shallow embedding, in Lean, of the parts of the tinycss
sources that the verified claims are about:

* `tinycss/tokenizer.py` — the flat tokenizer (`tokenize_flat`) built from an
  ordered list of regular expressions, and the `regroup` pass;
* `tinycss/tokenizer2.py` — the later tokenizer revision whose single regex
  distinguishes INTEGER from NUMBER;
* `tinycss/token_data.py` — the token data model (`Token`, `ContainerToken`,
  `FunctionToken`);
* `tinycss/css21.py` — the CSS 2.1 parser (`CSS21Parser`) and its helpers;
* `tinycss/color3.py` — the CSS 3 color helper (`parse_color`).

Modelling conventions:

* CSS text is a `List Char` of Unicode code points.  Python `str.lower()` is
  modelled on ASCII letters only (all strings the parser compares after
  lowering are ASCII).  Python `float` values are modelled as the exact
  rational value of the decimal literal.
* Python regexes (compiled with `re.I`) are modelled by a small regex AST
  `Rx` and a fuel-bounded backtracking matcher `mat` in continuation-passing
  style, which mirrors the Python `re` semantics for the constructs the
  source uses: ordered alternation, greedy `*` `+` `?` and `{m,n}`,
  character classes, case-insensitive literals.
* Python exceptions are modelled with `Except`; the mutable `errors` lists
  are threaded explicitly.
-/

/-- Token type tags, mirroring the type strings of `tinycss`
(`'IDENT'`, `'{'`, ... ).  `INTEGER` only occurs in the `tokenizer2.py`
revision; `SELECTOR` and `VALUES` are the synthesized container types used by
`css21.py`. -/
inductive TokType where
  | S | URI | BAD_URI | FUNCTION | UNICODE_RANGE | IDENT | ATKEYWORD | HASH
  | DIMENSION | PERCENTAGE | NUMBER | INTEGER | STRING | BAD_STRING
  | COMMENT | BAD_COMMENT | DELIM | CDO | CDC
  | colon | semicolon | lbrace | rbrace | lparen | rparen | lbrack | rbrack
  | SELECTOR | VALUES
  deriving DecidableEq, Repr

/-- A parsed token value: Python `int`, `float` (modelled as the exact
rational of the literal) or `str`. -/
inductive TokValue where
  | ofInt : Int → TokValue
  | ofFloat : ℚ → TokValue
  | ofStr : List Char → TokValue
  deriving DecidableEq, Repr

/-- Atomic token, mirroring `token_data.Token`:
type, `as_css` (verbatim source slice), parsed value, optional unit,
line and column. -/
structure Token where
  type : TokType
  as_css : List Char
  value : TokValue
  unit : Option (List Char)
  line : Nat
  column : Nat
  deriving DecidableEq, Repr

/-- Regex AST covering the constructs used by the tinycss token grammar. -/
inductive Rx where
  | eps  : Rx
  | cls  : (Char → Bool) → Rx
  | cat  : Rx → Rx → Rx
  | alt  : Rx → Rx → Rx
  | star : Rx → Rx
  | rep  : Rx → Nat → Nat → Rx

namespace Rx

/-- Greedy `?`. -/
def opt (r : Rx) : Rx := .alt r .eps

/-- Greedy `+` as `r r*`. -/
def plus (r : Rx) : Rx := .cat r (.star r)

/-- Single (case-sensitive) literal character. -/
def chr (c : Char) : Rx := .cls (fun x => x = c)

/-- Case-insensitive ASCII letter literal (the source compiles all token
regexes with `re.I`). -/
def ichr (lo hi : Char) : Rx := .cls (fun x => x = lo || x = hi)

end Rx

/-- Fuel-bounded backtracking matcher in CPS, mirroring Python `re`
semantics: alternation is ordered (left first), `*`, `+`, `?`, `{m,n}` are
greedy with backtracking into the continuation.  Running out of fuel behaves
as a failed match; all theorems are either fuel-independent or evaluate on
concrete inputs with ample fuel. -/
def mat {α : Type} : Nat → Rx → List Char → (List Char → Option α) → Option α
  | 0, _, _, _ => none
  | _ + 1, .eps, s, k => k s
  | _ + 1, .cls p, s, k =>
    match s with
    | [] => none
    | c :: t => if p c then k t else none
  | fuel + 1, .cat a b, s, k => mat fuel a s (fun t => mat fuel b t k)
  | fuel + 1, .alt a b, s, k => (mat fuel a s k) <|> (mat fuel b s k)
  | fuel + 1, .star a, s, k =>
    (mat fuel a s (fun t => mat fuel (.star a) t k)) <|> k s
  | fuel + 1, .rep a lo hi, s, k =>
    if hi = 0 then (if lo = 0 then k s else none)
    else
      (mat fuel a s (fun t => mat fuel (.rep a (lo - 1) (hi - 1)) t k)) <|>
        (if lo = 0 then k s else none)

/-- Anchored match at the start of `s`, returning the number of characters
consumed (mirrors `regexp.match(source, pos)` followed by `len(match.group())`). -/
def matchLen (fuel : Nat) (r : Rx) (s : List Char) : Option Nat :=
  mat fuel r s (fun t => some (s.length - t.length))

/-- Syntactic under-approximation of "every successful match consumes at
least one character". -/
def consumesRx : Rx → Bool
  | .eps => false
  | .cls _ => true
  | .cat a b => consumesRx a || consumesRx b
  | .alt a b => consumesRx a && consumesRx b
  | .star _ => false
  | .rep a lo _ => consumesRx a && decide (1 ≤ lo)

theorem orElse_eq_some {α : Type} {a b : Option α} {r : α}
    (h : (a <|> b) = some r) : a = some r ∨ b = some r := by
  cases a with
  | none => right; simpa [Option.orElse] using h
  | some x => left; simpa [Option.orElse] using h

/-- Soundness of the matcher: a successful match invokes the continuation on
a suffix of the input, which is strict when `consumesRx` holds. -/
theorem mat_suffix {α : Type} :
    ∀ (fuel : Nat) (r : Rx) (s : List Char) (k : List Char → Option α) (res : α),
      mat fuel r s k = some res →
      ∃ t, t.IsSuffix s ∧ k t = some res ∧
        (consumesRx r = true → t.length < s.length) := by
  intro fuel
  induction fuel with
  | zero => intro r s k res h; simp [mat] at h
  | succ n ih =>
    intro r s k res h
    cases r with
    | eps =>
      exact ⟨s, List.suffix_refl s, h, by intro hc; simp [consumesRx] at hc⟩
    | cls p =>
      cases s with
      | nil => simp [mat] at h
      | cons c t =>
        simp only [mat] at h
        by_cases hp : p c
        · refine ⟨t, List.suffix_cons c t, ?_, ?_⟩
          · simpa [hp] using h
          · intro _; simp
        · simp [hp] at h
    | cat a b =>
      simp only [mat] at h
      obtain ⟨t1, hsuf1, hk1, hlen1⟩ := ih a s _ res h
      obtain ⟨t2, hsuf2, hk2, hlen2⟩ := ih b t1 k res hk1
      refine ⟨t2, hsuf2.trans hsuf1, hk2, ?_⟩
      intro hc
      simp only [consumesRx, Bool.or_eq_true] at hc
      rcases hc with hc | hc
      · exact lt_of_le_of_lt hsuf2.length_le (hlen1 hc)
      · exact lt_of_lt_of_le (hlen2 hc) hsuf1.length_le
    | alt a b =>
      simp only [mat] at h
      rcases orElse_eq_some h with h' | h'
      · obtain ⟨t, hsuf, hk, hlen⟩ := ih a s k res h'
        refine ⟨t, hsuf, hk, ?_⟩
        intro hc
        simp only [consumesRx, Bool.and_eq_true] at hc
        exact hlen hc.1
      · obtain ⟨t, hsuf, hk, hlen⟩ := ih b s k res h'
        refine ⟨t, hsuf, hk, ?_⟩
        intro hc
        simp only [consumesRx, Bool.and_eq_true] at hc
        exact hlen hc.2
    | star a =>
      simp only [mat] at h
      rcases orElse_eq_some h with h' | h'
      · obtain ⟨t1, hsuf1, hk1, _⟩ := ih a s _ res h'
        obtain ⟨t2, hsuf2, hk2, _⟩ := ih (.star a) t1 k res hk1
        exact ⟨t2, hsuf2.trans hsuf1, hk2, by intro hc; simp [consumesRx] at hc⟩
      · exact ⟨s, List.suffix_refl s, h', by intro hc; simp [consumesRx] at hc⟩
    | rep a lo hi =>
      simp only [mat] at h
      by_cases hhi : hi = 0
      · rw [if_pos hhi] at h
        by_cases hlo : lo = 0
        · refine ⟨s, List.suffix_refl s, by simpa [hlo] using h, ?_⟩
          intro hc
          simp only [consumesRx, Bool.and_eq_true, decide_eq_true_eq] at hc
          omega
        · simp [hlo] at h
      · rw [if_neg hhi] at h
        rcases orElse_eq_some h with h' | h'
        · obtain ⟨t1, hsuf1, hk1, hlen1⟩ := ih a s _ res h'
          obtain ⟨t2, hsuf2, hk2, _⟩ := ih (.rep a (lo - 1) (hi - 1)) t1 k res hk1
          refine ⟨t2, hsuf2.trans hsuf1, hk2, ?_⟩
          intro hc
          simp only [consumesRx, Bool.and_eq_true, decide_eq_true_eq] at hc
          exact lt_of_le_of_lt hsuf2.length_le (hlen1 hc.1)
        · by_cases hlo : lo = 0
          · refine ⟨s, List.suffix_refl s, by simpa [hlo] using h', ?_⟩
            intro hc
            simp only [consumesRx, Bool.and_eq_true, decide_eq_true_eq] at hc
            omega
          · simp [hlo] at h'

/-- A successful `matchLen` consumes between `1` (when `consumesRx`) and the
whole input. -/
theorem matchLen_bounds {fuel : Nat} {r : Rx} {s : List Char} {n : Nat}
    (h : matchLen fuel r s = some n) :
    n ≤ s.length ∧ (consumesRx r = true → 1 ≤ n) := by
  obtain ⟨t, hsuf, hk, hlen⟩ := mat_suffix fuel r s _ n h
  have ht : s.length - t.length = n := by simpa using hk
  have := hsuf.length_le
  constructor
  · omega
  · intro hc
    have := hlen hc
    omega

/-! ### Character classes and macros of the token grammar

Transcribed from the `MACROS` table shared by `tokenizer.py` and
`token_data.py`.  All patterns are compiled with `re.I`, so letter classes
and literals admit both cases. -/

/-- Class `[ \t\r\n\f]`. -/
def wspChar (c : Char) : Bool :=
  c = ' ' || c = '\t' || c = '\r' || c = '\n' || c = '\x0c'

/-- Class `[0-9]`. -/
def digitChar (c : Char) : Bool := '0' ≤ c && c ≤ '9'

/-- Class `[0-9a-f]` under `re.I`. -/
def hexChar (c : Char) : Bool :=
  digitChar c || ('a' ≤ c && c ≤ 'f') || ('A' ≤ c && c ≤ 'F')

/-- Class `[a-z]` under `re.I`. -/
def letterChar (c : Char) : Bool :=
  ('a' ≤ c && c ≤ 'z') || ('A' ≤ c && c ≤ 'Z')

/-- Macro `nonascii`: `[^\0-\237]`. -/
def nonasciiChar (c : Char) : Bool := 0x9F < c.toNat

/-- The apostrophe character (`'`). -/
def sQuote : Char := Char.ofNat 39

/-- The `{` character. -/
def lbraceChar : Char := Char.ofNat 123

/-- The `}` character. -/
def rbraceChar : Char := Char.ofNat 125

/-- Macro `nl`: `\n|\r\n|\r|\f`. -/
def nlRx : Rx :=
  .alt (Rx.chr '\n') (.alt (.cat (Rx.chr '\r') (Rx.chr '\n'))
    (.alt (Rx.chr '\r') (Rx.chr '\x0c')))

/-- Macro `w`: `[ \t\r\n\f]*`. -/
def wRx : Rx := .star (.cls wspChar)

/-- Macro `unicode`: `\\([0-9a-f]{1,6})(\r\n|[ \n\r\t\f])?`. -/
def unicodeRx : Rx :=
  .cat (Rx.chr '\\') (.cat (.rep (.cls hexChar) 1 6)
    (Rx.opt (.alt (.cat (Rx.chr '\r') (Rx.chr '\n'))
      (.cls (fun c => c = ' ' || c = '\n' || c = '\r' || c = '\t' || c = '\x0c')))))

/-- Macro `escape`: `{unicode}|\\[^\n\r\f0-9a-f]`. -/
def escapeRx : Rx :=
  .alt unicodeRx (.cat (Rx.chr '\\')
    (.cls (fun c => !(c = '\n' || c = '\r' || c = '\x0c' || hexChar c))))

/-- Macro `nmstart`: `[_a-z]|{nonascii}|{escape}`. -/
def nmstartRx : Rx :=
  .alt (.cls (fun c => c = '_' || letterChar c)) (.alt (.cls nonasciiChar) escapeRx)

/-- Macro `nmchar`: `[_a-z0-9-]|{nonascii}|{escape}`. -/
def nmcharRx : Rx :=
  .alt (.cls (fun c => c = '_' || letterChar c || digitChar c || c = '-'))
    (.alt (.cls nonasciiChar) escapeRx)

/-- Macro `name`: `{nmchar}+`. -/
def nameRx : Rx := Rx.plus nmcharRx

/-- Macro `ident`: `[-]?{nmstart}{nmchar}*`. -/
def identRx : Rx := .cat (Rx.opt (Rx.chr '-')) (.cat nmstartRx (.star nmcharRx))

/-- Macro `num`: `[-+]?(?:[0-9]*\.[0-9]+|[0-9]+)`. -/
def numRx : Rx :=
  .cat (Rx.opt (.cls (fun c => c = '-' || c = '+')))
    (.alt (.cat (.star (.cls digitChar)) (.cat (Rx.chr '.') (Rx.plus (.cls digitChar))))
      (Rx.plus (.cls digitChar)))

/-- Class `[^\n\r\f\\"]` (string1 body characters). -/
def str1Body (c : Char) : Bool :=
  !(c = '\n' || c = '\r' || c = '\x0c' || c = '\\' || c = '"')

/-- Class for string2 body characters (single-quoted). -/
def str2Body (c : Char) : Bool :=
  !(c = '\n' || c = '\r' || c = '\x0c' || c = '\\' || c = sQuote)

/-- Macro `string1`: `\"([^\n\r\f\\"]|\\{nl}|{escape})*\"`. -/
def string1Rx : Rx :=
  .cat (Rx.chr '"')
    (.cat (.star (.alt (.cls str1Body) (.alt (.cat (Rx.chr '\\') nlRx) escapeRx)))
      (Rx.chr '"'))

/-- Macro `string2` (single-quoted form of `string1`). -/
def string2Rx : Rx :=
  .cat (Rx.chr sQuote)
    (.cat (.star (.alt (.cls str2Body) (.alt (.cat (Rx.chr '\\') nlRx) escapeRx)))
      (Rx.chr sQuote))

/-- Macro `string`: `{string1}|{string2}`. -/
def stringRx : Rx := .alt string1Rx string2Rx

/-- Macro `badstring1`: `\"([^\n\r\f\\"]|\\{nl}|{escape})*\\?`. -/
def badstring1Rx : Rx :=
  .cat (Rx.chr '"')
    (.cat (.star (.alt (.cls str1Body) (.alt (.cat (Rx.chr '\\') nlRx) escapeRx)))
      (Rx.opt (Rx.chr '\\')))

/-- Macro `badstring2` (single-quoted form of `badstring1`). -/
def badstring2Rx : Rx :=
  .cat (Rx.chr sQuote)
    (.cat (.star (.alt (.cls str2Body) (.alt (.cat (Rx.chr '\\') nlRx) escapeRx)))
      (Rx.opt (Rx.chr '\\')))

/-- Macro `badstring`: `{badstring1}|{badstring2}`. -/
def badstringRx : Rx := .alt badstring1Rx badstring2Rx

/-- Class `[^*]`. -/
def notStarChar (c : Char) : Bool := !(c = '*')

/-- Class `[^/*]`. -/
def notSlashStarChar (c : Char) : Bool := !(c = '/' || c = '*')

/-- Token `COMMENT`: `\/\*[^*]*\*+([^/*][^*]*\*+)*\/`. -/
def commentRx : Rx :=
  .cat (Rx.chr '/') (.cat (Rx.chr '*')
    (.cat (.star (.cls notStarChar))
      (.cat (Rx.plus (Rx.chr '*'))
        (.cat (.star (.cat (.cls notSlashStarChar)
            (.cat (.star (.cls notStarChar)) (Rx.plus (Rx.chr '*')))))
          (Rx.chr '/')))))

/-- Macro `badcomment1`: `\/\*[^*]*\*+([^/*][^*]*\*+)*`. -/
def badcomment1Rx : Rx :=
  .cat (Rx.chr '/') (.cat (Rx.chr '*')
    (.cat (.star (.cls notStarChar))
      (.cat (Rx.plus (Rx.chr '*'))
        (.star (.cat (.cls notSlashStarChar)
          (.cat (.star (.cls notStarChar)) (Rx.plus (Rx.chr '*'))))))))

/-- Macro `badcomment2`: `\/\*[^*]*(\*+[^/*][^*]*)*`. -/
def badcomment2Rx : Rx :=
  .cat (Rx.chr '/') (.cat (Rx.chr '*')
    (.cat (.star (.cls notStarChar))
      (.star (.cat (Rx.plus (Rx.chr '*'))
        (.cat (.cls notSlashStarChar) (.star (.cls notStarChar)))))))

/-- Macro `badcomment`: `{badcomment1}|{badcomment2}`. -/
def badcommentRx : Rx := .alt badcomment1Rx badcomment2Rx

/-- Literal `url\(` under `re.I`. -/
def urlOpenRx : Rx :=
  .cat (Rx.ichr 'u' 'U') (.cat (Rx.ichr 'r' 'R') (.cat (Rx.ichr 'l' 'L') (Rx.chr '(')))

/-- Class `[!#$%&*-~]` (baduri1 body characters). -/
def baduri1Chars (c : Char) : Bool :=
  c = '!' || c = '#' || c = '$' || c = '%' || c = '&' || ('*' ≤ c && c ≤ '~')

/-- Macro `baduri1`: `url\({w}([!#$%&*-~]|{nonascii}|{escape})*{w}`. -/
def baduri1Rx : Rx :=
  .cat urlOpenRx (.cat wRx
    (.cat (.star (.alt (.cls baduri1Chars) (.alt (.cls nonasciiChar) escapeRx))) wRx))

/-- Macro `baduri2`: `url\({w}{string}{w}`. -/
def baduri2Rx : Rx := .cat urlOpenRx (.cat wRx (.cat stringRx wRx))

/-- Macro `baduri3`: `url\({w}{badstring}`. -/
def baduri3Rx : Rx := .cat urlOpenRx (.cat wRx badstringRx)

/-- Macro `baduri`: `{baduri1}|{baduri2}|{baduri3}`. -/
def baduriRx : Rx := .alt baduri1Rx (.alt baduri2Rx baduri3Rx)

/-- Class `[!#$%&*-\[\]-~]` (URI body characters). -/
def uriChars (c : Char) : Bool :=
  c = '!' || c = '#' || c = '$' || c = '%' || c = '&' ||
    ('*' ≤ c && c ≤ '[') || (']' ≤ c && c ≤ '~')

/-- The capture group of `URI`: `({string}|([!#$%&*-\[\]-~]|{nonascii}|{escape})*)`. -/
def uriContentRx : Rx :=
  .alt stringRx (.star (.alt (.cls uriChars) (.alt (.cls nonasciiChar) escapeRx)))

/-- Token `URI`: `url\({w}({string}|([!#$%&*-\[\]-~]|{nonascii}|{escape})*){w}\)`. -/
def uriRx : Rx :=
  .cat urlOpenRx (.cat wRx (.cat uriContentRx (.cat wRx (Rx.chr ')'))))

/-- Token `FUNCTION`: `{ident}\(`. -/
def functionRx : Rx := .cat identRx (Rx.chr '(')

/-- Token `UNICODE-RANGE`: `u\+[0-9a-f?]{1,6}(-[0-9a-f]{1,6})?`. -/
def unicodeRangeRx : Rx :=
  .cat (Rx.ichr 'u' 'U') (.cat (Rx.chr '+')
    (.cat (.rep (.cls (fun c => hexChar c || c = '?')) 1 6)
      (Rx.opt (.cat (Rx.chr '-') (.rep (.cls hexChar) 1 6)))))

/-- Token `ATKEYWORD`: `@{ident}`. -/
def atkeywordRx : Rx := .cat (Rx.chr '@') identRx

/-- Token `HASH`: `#{name}`. -/
def hashRx : Rx := .cat (Rx.chr '#') nameRx

/-- Token `DIMENSION`: `({num})({ident})`. -/
def dimensionRx : Rx := .cat numRx identRx

/-- Token `PERCENTAGE`: `{num}%`. -/
def percentageRx : Rx := .cat numRx (Rx.chr '%')

/-- Token `S`: `[ \t\r\n\f]+`. -/
def sRx : Rx := Rx.plus (.cls wspChar)

/-- Token `CDO`: `<!--`. -/
def cdoRx : Rx := .cat (Rx.chr '<') (.cat (Rx.chr '!') (.cat (Rx.chr '-') (Rx.chr '-')))

/-- Token `CDC`: `-->`. -/
def cdcRx : Rx := .cat (Rx.chr '-') (.cat (Rx.chr '-') (Rx.chr '>'))

/-- The ordered token list `TOKENS` of `tokenizer.py` (first match wins). -/
def tokenRegexps : List (TokType × Rx) :=
  [(.S, sRx), (.URI, uriRx), (.BAD_URI, baduriRx), (.FUNCTION, functionRx),
   (.UNICODE_RANGE, unicodeRangeRx), (.IDENT, identRx), (.ATKEYWORD, atkeywordRx),
   (.HASH, hashRx), (.DIMENSION, dimensionRx), (.PERCENTAGE, percentageRx),
   (.NUMBER, numRx), (.STRING, stringRx), (.BAD_STRING, badstringRx),
   (.COMMENT, commentRx), (.BAD_COMMENT, badcommentRx),
   (.colon, Rx.chr ':'), (.semicolon, Rx.chr ';'),
   (.lbrace, Rx.chr lbraceChar), (.rbrace, Rx.chr rbraceChar),
   (.lparen, Rx.chr '('), (.rparen, Rx.chr ')'),
   (.lbrack, Rx.chr '['), (.rbrack, Rx.chr ']'),
   (.CDO, cdoRx), (.CDC, cdcRx)]

/-- Generous fuel for a single anchored match attempt (a modelling artifact:
the Python engine has no fuel; all fuel-sensitive results are either
fuel-independent or evaluated on small concrete inputs). -/
def scanFuel (s : List Char) : Nat := 100 * (s.length + 2) * (s.length + 2)

/-- The `for type_, regexp in compiled_token` loop: first regex that matches. -/
def scanGo (fuel : Nat) (s : List Char) : List (TokType × Rx) → Option (TokType × Nat)
  | [] => none
  | (ty, r) :: rest =>
    match matchLen fuel r s with
    | some n => some (ty, n)
    | none => scanGo fuel s rest

/-- Scan one token at the head of `s` (`None` means the `DELIM` fallback). -/
def scanOne (s : List Char) : Option (TokType × Nat) :=
  scanGo (scanFuel s) s tokenRegexps

theorem tokenRegexps_consume : tokenRegexps.all (fun p => consumesRx p.2) = true := by
  decide

theorem scanGo_mem {fuel : Nat} {s : List Char} {L : List (TokType × Rx)}
    {ty : TokType} {n : Nat} (h : scanGo fuel s L = some (ty, n)) :
    ∃ r, (ty, r) ∈ L ∧ matchLen fuel r s = some n := by
  induction L with
  | nil => simp [scanGo] at h
  | cons p rest ih =>
    obtain ⟨pty, pr⟩ := p
    simp only [scanGo] at h
    cases hm : matchLen fuel pr s with
    | some m =>
      rw [hm] at h
      simp only [Option.some.injEq, Prod.mk.injEq] at h
      obtain ⟨h1, h2⟩ := h
      subst h1; subst h2
      exact ⟨pr, List.mem_cons_self _ _, hm⟩
    | none =>
      rw [hm] at h
      obtain ⟨r, hr, hml⟩ := ih h
      exact ⟨r, List.mem_cons_of_mem _ hr, hml⟩

/-- Every successful scan consumes at least one and at most all characters. -/
theorem scanOne_bounds {s : List Char} {ty : TokType} {n : Nat}
    (h : scanOne s = some (ty, n)) : 1 ≤ n ∧ n ≤ s.length := by
  obtain ⟨r, hmem, hml⟩ := scanGo_mem h
  have hcons : consumesRx r = true := by
    have := List.all_eq_true.mp tokenRegexps_consume (ty, r) hmem
    simpa using this
  obtain ⟨h1, h2⟩ := matchLen_bounds hml
  exact ⟨h2 hcons, h1⟩

/-! ### Escape decoding, numeric values, position tracking

These mirror `UNICODE_UNESCAPE`, `NEWLINE_UNESCAPE`, `SIMPLE_UNESCAPE`,
`FIND_NEWLINES` and the `int(...)`/`float(...)` conversions of
`tokenizer.py`. -/

/-- Python `str.lower()` restricted to ASCII (all lowered strings compared by
the parser are ASCII). -/
def asciiLowerChar (c : Char) : Char :=
  if 'A' ≤ c ∧ c ≤ 'Z' then Char.ofNat (c.toNat + 32) else c

/-- ASCII lowercase of a character list. -/
def asciiLower (l : List Char) : List Char := l.map asciiLowerChar

/-- `NEWLINE_UNESCAPE`: delete every `\\` + newline (`\n`, `\r\n`, `\r`, `\f`),
scanning left to right.  The `\r\n` arm precedes the `\r` arm, as in the
`nl` alternation. -/
def newline_unescape : List Char → List Char
  | '\\' :: '\n' :: r => newline_unescape r
  | '\\' :: '\r' :: '\n' :: r => newline_unescape r
  | '\\' :: '\r' :: r => newline_unescape r
  | '\\' :: '\x0c' :: r => newline_unescape r
  | c :: r => c :: newline_unescape r
  | [] => []

/-- Take up to `n` leading hex digits. -/
def takeHex : Nat → List Char → List Char × List Char
  | 0, l => ([], l)
  | _ + 1, [] => ([], [])
  | n + 1, c :: r =>
    if hexChar c then
      let p := takeHex n r
      (c :: p.1, p.2)
    else ([], c :: r)

/-- Hex digit value. -/
def hexVal (c : Char) : Nat :=
  if digitChar c then c.toNat - 48
  else if 'a' ≤ c && c ≤ 'f' then c.toNat - 87
  else c.toNat - 55

/-- Value of a hex digit string. -/
def hexListVal (l : List Char) : Nat := l.foldl (fun a c => 16 * a + hexVal c) 0

/-- Replacement character for a unicode escape: the code point itself, or
U+FFFD beyond `sys.maxunicode` (0x10FFFF).  (Python `chr` admits lone
surrogates, which `Char.ofNat` maps to NUL; no surrogate escape occurs in any
statement below.) -/
def uniRepl (cp : Nat) : Char :=
  if cp ≤ 0x10FFFF then Char.ofNat cp else Char.ofNat 0xFFFD

/-- Consume the optional `(\r\n|[ \n\r\t\f])?` after the hex digits of a
unicode escape (the `\r\n` alternative first). -/
def dropEscWs : List Char → List Char
  | '\r' :: '\n' :: r => r
  | c :: r =>
    if c = ' ' || c = '\n' || c = '\r' || c = '\t' || c = '\x0c' then r else c :: r
  | [] => []

/-- One fuel-per-output-character loop for `UNICODE_UNESCAPE`
(`re.sub` of the `unicode` macro); fuel `l.length` always suffices since
every step consumes at least one input character. -/
def uniGo : Nat → List Char → List Char
  | 0, l => l
  | _ + 1, [] => []
  | fuel + 1, '\\' :: r =>
    match r with
    | c :: _ =>
      if hexChar c then
        let p := takeHex 6 r
        uniRepl (hexListVal p.1) :: uniGo fuel (dropEscWs p.2)
      else '\\' :: uniGo fuel r
    | [] => ['\\']
  | fuel + 1, c :: r => c :: uniGo fuel r

/-- `UNICODE_UNESCAPE`: substitute `\\([0-9a-f]{1,6})(\r\n|[ \n\r\t\f])?`. -/
def unicode_unescape (l : List Char) : List Char := uniGo l.length l

/-- `SIMPLE_UNESCAPE`: substitute `\\(.)` by the escaped character
(`.` does not match `\n`, so a backslash before a newline is kept). -/
def simple_unescape : List Char → List Char
  | '\\' :: c :: r =>
    if c = '\n' then '\\' :: simple_unescape (c :: r) else c :: simple_unescape r
  | c :: r => c :: simple_unescape r
  | [] => []

/-- Value of a decimal digit string as an integer. -/
def digitsVal (l : List Char) : Int :=
  l.foldl (fun a c => 10 * a + ((c.toNat : Int) - 48)) 0

/-- Python `int(value)` on a `[-+]?[0-9]+` literal. -/
def parseIntCss : List Char → Int
  | '-' :: r => - digitsVal r
  | '+' :: r => digitsVal r
  | r => digitsVal r

/-- Value of an unsigned decimal literal `[0-9]*\.[0-9]+` as an exact
rational. -/
def decVal (l : List Char) : ℚ :=
  let ip := l.takeWhile (fun c => !(c = '.'))
  let fp := (l.dropWhile (fun c => !(c = '.'))).drop 1
  (digitsVal ip : ℚ) + (digitsVal fp : ℚ) / (10 : ℚ) ^ fp.length

/-- Python `float(value)` on a signed decimal literal, modelled exactly. -/
def parseDecCss : List Char → ℚ
  | '-' :: r => - decVal r
  | '+' :: r => decVal r
  | r => decVal r

/-- The numeric value of `tokenizer.py`:
`float(value) if '.' in value else int(value)`. -/
def numTokValue (l : List Char) : TokValue :=
  if l.contains '.' then .ofFloat (parseDecCss l) else .ofInt (parseIntCss l)

/-- Scan for newlines (`FIND_NEWLINES`), returning the match count and the
end index of the last match. -/
def nlScan : List Char → Nat → Nat × Nat
  | '\r' :: '\n' :: r, i =>
    let p := nlScan r (i + 2)
    (p.1 + 1, if p.1 = 0 then i + 2 else p.2)
  | '\n' :: r, i =>
    let p := nlScan r (i + 1)
    (p.1 + 1, if p.1 = 0 then i + 1 else p.2)
  | '\r' :: r, i =>
    let p := nlScan r (i + 1)
    (p.1 + 1, if p.1 = 0 then i + 1 else p.2)
  | '\x0c' :: r, i =>
    let p := nlScan r (i + 1)
    (p.1 + 1, if p.1 = 0 then i + 1 else p.2)
  | _ :: r, i => nlScan r (i + 1)
  | [], _ => (0, 0)

/-- Line/column update at the end of each tokenizer iteration. -/
def advancePos (cssValue : List Char) (line col : Nat) : Nat × Nat :=
  let p := nlScan cssValue 0
  if 0 < p.1 then (line + p.1, cssValue.length - p.2 + 1)
  else (line, col + cssValue.length)

/-! ### The flat tokenizer of `tokenizer.py` -/

/-- Capture groups of `DIMENSION` = `({num})({ident})`: lengths consumed by
group 1 and by the whole match, along the same backtracking path as the
token match itself. -/
def matchDim (fuel : Nat) (s : List Char) : Option (Nat × Nat) :=
  mat fuel numRx s (fun t =>
    mat fuel identRx t (fun u => some (s.length - t.length, s.length - u.length)))

/-- Capture group 1 of `URI`: start and end offsets of the content group,
along the same backtracking path as the token match itself. -/
def matchUriGroup (fuel : Nat) (s : List Char) : Option (Nat × Nat) :=
  mat fuel urlOpenRx s (fun t1 =>
    mat fuel wRx t1 (fun t2 =>
      mat fuel uriContentRx t2 (fun t3 =>
        mat fuel wRx t3 (fun _t4 =>
          mat fuel (Rx.chr ')') _t4 (fun _ =>
            some (s.length - t2.length, s.length - t3.length))))))

/-- Build one token: the value/unit computation of `tokenize_flat`
(`tokenizer.py` lines 209–257).  `atEof` is `next_pos == source_len`;
`s` is the remaining source (for the group re-extraction of DIMENSION/URI). -/
def mkToken (ty : TokType) (css : List Char) (atEof : Bool) (s : List Char)
    (line col : Nat) : Token :=
  match ty with
  | .DIMENSION =>
    match matchDim (scanFuel s) s with
    | some (n1, n2) =>
      let numTxt := s.take n1
      let unitTxt := (s.take n2).drop n1
      ⟨.DIMENSION, css, numTokValue numTxt,
        some (asciiLower (simple_unescape (unicode_unescape unitTxt))), line, col⟩
    | none => ⟨.DIMENSION, css, .ofStr css, none, line, col⟩
  | .PERCENTAGE =>
    ⟨.PERCENTAGE, css, numTokValue css.dropLast, some ['%'], line, col⟩
  | .NUMBER => ⟨.NUMBER, css, numTokValue css, none, line, col⟩
  | .IDENT => ⟨.IDENT, css, .ofStr (simple_unescape (unicode_unescape css)), none, line, col⟩
  | .ATKEYWORD =>
    ⟨.ATKEYWORD, css, .ofStr (simple_unescape (unicode_unescape css)), none, line, col⟩
  | .HASH => ⟨.HASH, css, .ofStr (simple_unescape (unicode_unescape css)), none, line, col⟩
  | .FUNCTION =>
    ⟨.FUNCTION, css, .ofStr (simple_unescape (unicode_unescape css)), none, line, col⟩
  | .URI =>
    match matchUriGroup (scanFuel s) s with
    | some (a, b) =>
      let content := (s.take b).drop a
      let v1 :=
        if content.head? = some '"' ∨ content.head? = some sQuote then
          newline_unescape (content.drop 1).dropLast
        else content
      ⟨.URI, css, .ofStr (simple_unescape (unicode_unescape v1)), none, line, col⟩
    | none => ⟨.URI, css, .ofStr css, none, line, col⟩
  | .STRING =>
    ⟨.STRING, css,
      .ofStr (simple_unescape (unicode_unescape (newline_unescape (css.drop 1).dropLast))),
      none, line, col⟩
  | .BAD_STRING =>
    if atEof then
      ⟨.STRING, css,
        .ofStr (simple_unescape (unicode_unescape (newline_unescape (css.drop 1)))),
        none, line, col⟩
    else ⟨.BAD_STRING, css, .ofStr css, none, line, col⟩
  | _ => ⟨ty, css, .ofStr css, none, line, col⟩

/-- The main tokenizer loop of `tokenize_flat` (`tokenizer.py`), with one
fuel per iteration; each iteration consumes at least one character, so the
wrapper's fuel `s.length` is exact. -/
def tokLoop (ic : Bool) : Nat → List Char → Nat → Nat → List Token
  | 0, _, _, _ => []
  | _ + 1, [], _, _ => []
  | fuel + 1, c :: s', line, col =>
    let s := c :: s'
    let p : TokType × Nat :=
      match scanOne s with
      | some q => q
      | none => (.DELIM, 1)
    let css := s.take p.2
    let rest := s.drop p.2
    let pos2 := advancePos css line col
    let tks := tokLoop ic fuel rest pos2.1 pos2.2
    if ic ∧ (p.1 = .COMMENT ∨ p.1 = .BAD_COMMENT) then tks
    else mkToken p.1 css (decide (p.2 = s.length)) s line col :: tks

/-- `tokenize_flat(css_source, ignore_comments)` of `tokenizer.py`. -/
def tokenize_flat (ignore_comments : Bool) (s : List Char) : List Token :=
  tokLoop ignore_comments s.length s 1 1

/-- Concatenation of the verbatim source slices of a token list. -/
def catCss : List Token → List Char
  | [] => []
  | t :: r => t.as_css ++ catCss r

theorem mkToken_as_css (ty : TokType) (css : List Char) (atEof : Bool)
    (s : List Char) (line col : Nat) :
    (mkToken ty css atEof s line col).as_css = css := by
  cases ty <;> unfold mkToken <;> (repeat' split) <;> rfl

theorem catCss_append (a b : List Token) : catCss (a ++ b) = catCss a ++ catCss b := by
  induction a with
  | nil => rfl
  | cons t r ih => simp [catCss, ih]

/-- Each tokenizer iteration emits (or, for an ignored comment, skips) a
token whose `as_css` is exactly the consumed source slice, so for any fuel
covering the input the concatenation over `tokLoop false` restores the
source. -/
theorem tokLoop_false_catCss :
    ∀ (fuel : Nat) (s : List Char) (line col : Nat), s.length ≤ fuel →
      catCss (tokLoop false fuel s line col) = s := by
  intro fuel
  induction fuel with
  | zero =>
    intro s line col h
    have hs : s = [] := List.length_eq_zero.mp (Nat.le_zero.mp h)
    subst hs
    rfl
  | succ n ih =>
    intro s line col h
    match s with
    | [] => rfl
    | c :: s' =>
      cases hscan : scanOne (c :: s') with
      | none =>
        have hrest : ((c :: s').drop 1).length ≤ n := by
          simp only [List.length_cons] at h
          simp only [List.drop_one, List.length_tail, List.length_cons]
          omega
        simp only [tokLoop, hscan]
        rw [if_neg (by simp)]
        simp only [catCss, mkToken_as_css]
        rw [ih _ _ _ hrest]
        simp
      | some p =>
        obtain ⟨h1, h2⟩ := scanOne_bounds hscan
        have hrest : ((c :: s').drop p.2).length ≤ n := by
          simp only [List.length_cons] at h ⊢
          simp only [List.length_drop, List.length_cons]
          omega
        simp only [tokLoop, hscan]
        rw [if_neg (by simp)]
        simp only [catCss, mkToken_as_css]
        rw [ih _ _ _ hrest]
        exact List.take_append_drop _ _

/-- C1: For every CSS source text S, tokenizing S with
`ignore_comments=false` yields a flat token sequence such that concatenating
each token's verbatim source slice (`as_css`) in order equals S exactly. -/
theorem c1_tokenize_flat_round_trip (s : List Char) :
    catCss (tokenize_flat false s) = s :=
  tokLoop_false_catCss s.length s 1 1 (le_refl _)

theorem tokLoop_nil (ic : Bool) (fuel line col : Nat) :
    tokLoop ic fuel [] line col = [] := by
  cases fuel <;> rfl

/-- C7: If a BAD_STRING match ends exactly at the end of the input, the
tokenizer emits it as a STRING token whose value is the text after the
opening quote with newline, unicode and simple escapes decoded; a BAD_STRING
match that does not end at end of input remains a BAD_STRING token whose
value equals its verbatim source. -/
theorem c7_bad_string_eof_promotion (s : List Char) (n line col : Nat) (ic : Bool)
    (hscan : scanOne s = some (.BAD_STRING, n)) :
    (n = s.length →
      tokLoop ic s.length s line col =
        [⟨.STRING, s,
          .ofStr (simple_unescape (unicode_unescape (newline_unescape (s.drop 1)))),
          none, line, col⟩]) ∧
    (n < s.length →
      ∃ tl, tokLoop ic s.length s line col =
        ⟨.BAD_STRING, s.take n, .ofStr (s.take n), none, line, col⟩ :: tl) := by
  obtain ⟨h1, h2⟩ := scanOne_bounds hscan
  match s with
  | [] => simp at h2; omega
  | c :: s' =>
    constructor
    · intro heq
      simp only [List.length_cons] at heq
      simp only [List.length_cons, tokLoop, hscan]
      rw [if_neg (by simp)]
      have htake : (c :: s').take n = c :: s' := by
        rw [heq]
        simp
      have hdrop : (c :: s').drop n = [] := by
        rw [heq]
        simp
      rw [htake, hdrop, tokLoop_nil]
      have heof : decide (n = s'.length + 1) = true := by simp [heq]
      rw [heof]
      simp [mkToken]
    · intro hlt
      simp only [List.length_cons, tokLoop, hscan]
      rw [if_neg (by simp)]
      refine ⟨tokLoop ic s'.length ((c :: s').drop n)
        (advancePos ((c :: s').take n) line col).1
        (advancePos ((c :: s').take n) line col).2, ?_⟩
      have hneof : decide (n = s'.length + 1) = false := by
        simp only [List.length_cons] at hlt
        simp only [decide_eq_false_iff_not]
        omega
      simp [mkToken, hneof]

/-- Witness for `c7_bad_string_eof_promotion`: the unterminated string `"a`
at end of input becomes STRING with value `a`; the string `"b` broken by a
newline stays BAD_STRING with its verbatim source as value. -/
theorem c7_bad_string_eof_promotion_witness :
    (scanOne ['"', 'a'] = some (.BAD_STRING, 2) ∧
      tokLoop false 2 ['"', 'a'] 1 1 =
        [⟨.STRING, ['"', 'a'], .ofStr ['a'], none, 1, 1⟩]) ∧
    (scanOne ['"', 'b', '\n'] = some (.BAD_STRING, 2) ∧
      ∃ tl, tokLoop false 3 ['"', 'b', '\n'] 1 1 =
        ⟨.BAD_STRING, ['"', 'b'], .ofStr ['"', 'b'], none, 1, 1⟩ :: tl) := by
  have e1 : scanOne ['"', 'a'] = some (.BAD_STRING, 2) := by rfl
  have e2 : scanOne ['"', 'b', '\n'] = some (.BAD_STRING, 2) := by rfl
  refine ⟨⟨e1, ?_⟩, ⟨e2, ?_⟩⟩
  · exact (c7_bad_string_eof_promotion ['"', 'a'] 2 1 1 false e1).1 rfl
  · exact (c7_bad_string_eof_promotion ['"', 'b', '\n'] 2 1 1 false e2).2 (by simp)

/-! ### The tokenizer of `tokenizer2.py`

The later revision drives one combined regex whose named alternatives appear
in the order S, URI, BAD_URI, FUNCTION, UNICODE_RANGE, IDENT, ATKEYWORD,
HASH, numbers, STRING, BAD_STRING, COMMENT, BAD_COMMENT, CDO, CDC (ordered
alternation = try each in turn), preceded by a single-character fast path
for `:;{}()[]`.  Its macros (`nl`, `w`, `escape`, `ident`, `string`,
`badstring`, ...) are textually identical to those of `tokenizer.py`, so the
`Rx` definitions above are reused. -/

/-- Class `[+-]`. -/
def signChar (c : Char) : Bool := c = '+' || c = '-'

/-- Named group `fractional`: `[+-]?[0-9]*\.[0-9]+`. -/
def frac2Rx : Rx :=
  .cat (Rx.opt (.cls signChar))
    (.cat (.star (.cls digitChar)) (.cat (Rx.chr '.') (Rx.plus (.cls digitChar))))

/-- Named group `integer`: `[+-]?[0-9]+`. -/
def int2Rx : Rx := .cat (Rx.opt (.cls signChar)) (Rx.plus (.cls digitChar))

/-- Named group `unit`: `%|{ident}`. -/
def unit2Rx : Rx := .alt (Rx.chr '%') identRx

/-- Match the `numbers` alternative
`((?P<fractional>...)|(?P<integer>...))(?P<unit>%|ident)?`, returning
(integer group matched?, length of the numeric part, total length). -/
def matchNumbers2 (fuel : Nat) (s : List Char) : Option (Bool × Nat × Nat) :=
  (mat fuel frac2Rx s (fun t =>
    (mat fuel unit2Rx t (fun u => some (false, s.length - t.length, s.length - u.length))) <|>
      some (false, s.length - t.length, s.length - t.length))) <|>
  (mat fuel int2Rx s (fun t =>
    (mat fuel unit2Rx t (fun u => some (true, s.length - t.length, s.length - u.length))) <|>
      some (true, s.length - t.length, s.length - t.length)))

/-- Match `URI` returning (content group start, content group end, total). -/
def matchUriFull (fuel : Nat) (s : List Char) : Option (Nat × Nat × Nat) :=
  mat fuel urlOpenRx s (fun t1 =>
    mat fuel wRx t1 (fun t2 =>
      mat fuel uriContentRx t2 (fun t3 =>
        mat fuel wRx t3 (fun t4 =>
          mat fuel (Rx.chr ')') t4 (fun t5 =>
            some (s.length - t2.length, s.length - t3.length, s.length - t5.length))))))

/-- Result of one match of `TOKENS_RE` (which named alternative fired, with
length and capture data). -/
inductive Scan2 where
  | s (n : Nat) | uri (n a b : Nat) | baduri (n : Nat) | func (n : Nat)
  | urange (n : Nat) | ident (n : Nat) | atkw (n : Nat) | hash (n : Nat)
  | nums (isInt : Bool) (numEnd total : Nat)
  | str (n : Nat) | badstr (n : Nat) | comment (n : Nat) | badcom (n : Nat)
  | cdo (n : Nat) | cdc (n : Nat)
  deriving DecidableEq

/-- One anchored match of `TOKENS_RE` (ordered alternation: the first
alternative that matches fires). -/
def scanOne2 (s : List Char) : Option Scan2 :=
  let F := scanFuel s
  (Option.map Scan2.s (matchLen F sRx s)) <|>
  (Option.map (fun p => Scan2.uri p.2.2 p.1 p.2.1) (matchUriFull F s)) <|>
  (Option.map Scan2.baduri (matchLen F baduriRx s)) <|>
  (Option.map Scan2.func (matchLen F functionRx s)) <|>
  (Option.map Scan2.urange (matchLen F unicodeRangeRx s)) <|>
  (Option.map Scan2.ident (matchLen F identRx s)) <|>
  (Option.map Scan2.atkw (matchLen F atkeywordRx s)) <|>
  (Option.map Scan2.hash (matchLen F hashRx s)) <|>
  (Option.map (fun p => Scan2.nums p.1 p.2.1 p.2.2) (matchNumbers2 F s)) <|>
  (Option.map Scan2.str (matchLen F stringRx s)) <|>
  (Option.map Scan2.badstr (matchLen F badstringRx s)) <|>
  (Option.map Scan2.comment (matchLen F commentRx s)) <|>
  (Option.map Scan2.badcom (matchLen F badcommentRx s)) <|>
  (Option.map Scan2.cdo (matchLen F cdoRx s)) <|>
  (Option.map Scan2.cdc (matchLen F cdcRx s))

/-- Token type of the single-character fast path `':;{}()[]'`. -/
def punct2Type (c : Char) : TokType :=
  if c = ':' then .colon else if c = ';' then .semicolon
  else if c = lbraceChar then .lbrace else if c = rbraceChar then .rbrace
  else if c = '(' then .lparen else if c = ')' then .rparen
  else if c = '[' then .lbrack else .rbrack

/-- Value/type computation of `tokenizer2.tokenize_flat` (lines 244–328),
returning the consumed length and the token. -/
def mkToken2 (r : Scan2) (s : List Char) (line col : Nat) : Nat × Token :=
  match r with
  | .s n => (n, ⟨.S, s.take n, .ofStr (s.take n), none, line, col⟩)
  | .nums isInt ne t =>
    let css := s.take t
    let numTxt := s.take ne
    let unitTxt := (s.take t).drop ne
    let value : TokValue :=
      if isInt then .ofInt (parseIntCss numTxt) else .ofFloat (parseDecCss numTxt)
    if unitTxt = ['%'] then (t, ⟨.PERCENTAGE, css, value, some ['%'], line, col⟩)
    else if unitTxt ≠ [] then
      (t, ⟨.DIMENSION, css, value,
        some (asciiLower (simple_unescape (unicode_unescape unitTxt))), line, col⟩)
    else (t, ⟨if isInt then .INTEGER else .NUMBER, css, value, none, line, col⟩)
  | .ident n =>
    (n, ⟨.IDENT, s.take n, .ofStr (simple_unescape (unicode_unescape (s.take n))),
      none, line, col⟩)
  | .atkw n =>
    (n, ⟨.ATKEYWORD, s.take n, .ofStr (simple_unescape (unicode_unescape (s.take n))),
      none, line, col⟩)
  | .hash n =>
    (n, ⟨.HASH, s.take n, .ofStr (simple_unescape (unicode_unescape (s.take n))),
      none, line, col⟩)
  | .func n =>
    (n, ⟨.FUNCTION, s.take n, .ofStr (simple_unescape (unicode_unescape (s.take n))),
      none, line, col⟩)
  | .uri n a b =>
    let content := (s.take b).drop a
    let v1 :=
      if content.head? = some '"' ∨ content.head? = some sQuote then
        newline_unescape (content.drop 1).dropLast
      else content
    (n, ⟨.URI, s.take n, .ofStr (simple_unescape (unicode_unescape v1)), none, line, col⟩)
  | .str n =>
    (n, ⟨.STRING, s.take n,
      .ofStr (simple_unescape (unicode_unescape (newline_unescape ((s.take n).drop 1).dropLast))),
      none, line, col⟩)
  | .badstr n =>
    if n = s.length then
      (n, ⟨.STRING, s.take n,
        .ofStr (simple_unescape (unicode_unescape (newline_unescape ((s.take n).drop 1)))),
        none, line, col⟩)
    else (n, ⟨.BAD_STRING, s.take n, .ofStr (s.take n), none, line, col⟩)
  | .comment n => (n, ⟨.COMMENT, s.take n, .ofStr (s.take n), none, line, col⟩)
  | .badcom n => (n, ⟨.BAD_COMMENT, s.take n, .ofStr (s.take n), none, line, col⟩)
  | .baduri n => (n, ⟨.BAD_URI, s.take n, .ofStr (s.take n), none, line, col⟩)
  | .urange n => (n, ⟨.UNICODE_RANGE, s.take n, .ofStr (s.take n), none, line, col⟩)
  | .cdo n => (n, ⟨.CDO, s.take n, .ofStr (s.take n), none, line, col⟩)
  | .cdc n => (n, ⟨.CDC, s.take n, .ofStr (s.take n), none, line, col⟩)

/-- The main loop of `tokenizer2.tokenize_flat`. -/
def tok2Loop (ic : Bool) : Nat → List Char → Nat → Nat → List Token
  | 0, _, _, _ => []
  | _ + 1, [], _, _ => []
  | fuel + 1, c :: s', line, col =>
    if c = ':' ∨ c = ';' ∨ c = lbraceChar ∨ c = rbraceChar ∨
        c = '(' ∨ c = ')' ∨ c = '[' ∨ c = ']' then
      ⟨punct2Type c, [c], .ofStr [c], none, line, col⟩ ::
        tok2Loop ic fuel s' (advancePos [c] line col).1 (advancePos [c] line col).2
    else
      match scanOne2 (c :: s') with
      | some r =>
        let p := mkToken2 r (c :: s') line col
        let css := (c :: s').take p.1
        let rest := (c :: s').drop p.1
        let pos2 := advancePos css line col
        let tks := tok2Loop ic fuel rest pos2.1 pos2.2
        if ic ∧ (p.2.type = .COMMENT ∨ p.2.type = .BAD_COMMENT) then tks
        else p.2 :: tks
      | none =>
        ⟨.DELIM, [c], .ofStr [c], none, line, col⟩ ::
          tok2Loop ic fuel s' (advancePos [c] line col).1 (advancePos [c] line col).2

/-- `tokenize_flat` of `tokenizer2.py`. -/
def tokenize_flat2 (ignore_comments : Bool) (s : List Char) : List Token :=
  tok2Loop ignore_comments s.length s 1 1

/-- C6: the INTEGER/NUMBER distinction.  The `tokenizer2.py` revision emits
INTEGER (with an integer value) for a point-free unitless numeric literal
and NUMBER (with a float value) otherwise, and the two types are distinct —
but the tokenizer actually imported by the CSS 2.1 parser
(`css21.py` line 17: `from .tokenizer import tokenize_grouped`) is
`tokenizer.py`, which emits NUMBER in both cases: the code contradicts its
own `tests/test_css21.py` (which expects `('INTEGER', 1)` inside parsed
declaration values), `token_data.py`'s documented INTEGER token type, and
`css21.py`'s own `validate_any` whitelist.  This theorem evaluates both
tokenizers at the failing input. -/
theorem c6_integer_number_divergence :
    tokenize_flat2 true ['4'] = [⟨.INTEGER, ['4'], .ofInt 4, none, 1, 1⟩] ∧
    ((tokenize_flat2 true ['4', '.', '5']).map Token.type = [.NUMBER] ∧
      ∃ q : ℚ, tokenize_flat2 true ['4', '.', '5'] =
        [⟨.NUMBER, ['4', '.', '5'], .ofFloat q, none, 1, 1⟩]) ∧
    TokType.INTEGER ≠ TokType.NUMBER ∧
    tokenize_flat true ['4'] = [⟨.NUMBER, ['4'], .ofInt 4, none, 1, 1⟩] := by
  refine ⟨by decide, ⟨by decide, ⟨parseDecCss (['4', '.', '5'].take 3), ?_⟩⟩,
    by decide, by decide⟩
  rfl

/-! ### Grouped tokens and `regroup` (`tokenizer.py` lines 269–315,
`token_data.py` ContainerToken/FunctionToken) -/

/-- A token tree node: an atomic `Token`, a `ContainerToken`
(type, `css_start`, `css_end`, children, position), or a `FunctionToken`
which additionally records the unescaped function name. -/
inductive GTok where
  | tok : Token → GTok
  | cont (type : TokType) (css_start css_end : List Char) (content : List GTok)
      (line column : Nat) : GTok
  | fn (type : TokType) (css_start css_end : List Char) (function_name : List Char)
      (content : List GTok) (line column : Nat) : GTok

/-- The string payload of a token value (`FunctionToken` receives the
unescaped `token.value` string; other variants cannot occur there). -/
def tvStr : TokValue → List Char
  | .ofStr v => v
  | _ => []

/-- Type tag of a grouped token. -/
def gType : GTok → TokType
  | .tok t => t.type
  | .cont ty _ _ _ _ _ => ty
  | .fn ty _ _ _ _ _ _ => ty

/-- Line of a grouped token. -/
def gLine : GTok → Nat
  | .tok t => t.line
  | .cont _ _ _ _ l _ => l
  | .fn _ _ _ _ _ l _ => l

/-- Column of a grouped token. -/
def gCol : GTok → Nat
  | .tok t => t.column
  | .cont _ _ _ _ _ c => c
  | .fn _ _ _ _ _ _ c => c

/-- `css_end` of a grouped token (empty for atomic tokens). -/
def gCssEnd : GTok → List Char
  | .tok _ => []
  | .cont _ _ e _ _ _ => e
  | .fn _ _ e _ _ _ _ => e

/-- The `pairs` table of `regroup`:
`{'FUNCTION': ')', '(': ')', '[': ']', '{': '}'}`, with the closing
delimiter both as a token type (for the `stop_at` comparison) and as the
text used for `css_end`. -/
def pairEnd : TokType → Option (TokType × Char)
  | .FUNCTION => some (.rparen, ')')
  | .lparen => some (.rparen, ')')
  | .lbrack => some (.rbrack, ']')
  | .lbrace => some (.rbrace, rbraceChar)
  | _ => none

/-- `_regroup_inner(stop_at)`: returns the grouped tokens, the unconsumed
rest of the stream, and whether the loop ended by seeing `stop_at`
(`false` = the iterator was exhausted, which is Python's `eof` flag at that
moment).  One fuel per consumed token; `l.length` suffices. -/
def regroupInner : Nat → Option TokType → List Token → List GTok × List Token × Bool
  | 0, _, l => ([], l, false)
  | _ + 1, _, [] => ([], [], false)
  | fuel + 1, stop, t :: rest =>
    if some t.type = stop then ([], rest, true)
    else
      match pairEnd t.type with
      | none =>
        let p := regroupInner fuel stop rest
        (.tok t :: p.1, p.2.1, p.2.2)
      | some (endTy, endCh) =>
        let inner := regroupInner fuel (some endTy) rest
        let cssEnd : List Char := if inner.2.2 then [endCh] else []
        let built : GTok :=
          if t.type = .FUNCTION then
            .fn t.type t.as_css cssEnd (tvStr t.value).dropLast inner.1 t.line t.column
          else .cont t.type t.as_css cssEnd inner.1 t.line t.column
        let outer := regroupInner fuel stop inner.2.1
        (built :: outer.1, outer.2.1, outer.2.2)

/-- `regroup(tokens)` of `tokenizer.py`. -/
def regroup (l : List Token) : List GTok := (regroupInner l.length none l).1

/-- `tokenize_grouped(css_source, ignore_comments=True)`. -/
def tokenize_grouped (s : List Char) : List GTok := regroup (tokenize_flat true s)

mutual

/-- `as_css` of a grouped token (`ContainerToken.as_css` concatenates
`css_start`, the children's `as_css` and `css_end`). -/
def gAsCss : GTok → List Char
  | .tok t => t.as_css
  | .cont _ s e c _ _ => s ++ gAsCssList c ++ e
  | .fn _ s e _ c _ _ => s ++ gAsCssList c ++ e

/-- Concatenated `as_css` of a list of grouped tokens. -/
def gAsCssList : List GTok → List Char
  | [] => []
  | g :: r => gAsCss g ++ gAsCssList r

end

mutual

/-- All container nodes of a tree (the node itself when it is a container,
plus all containers nested below it). -/
def subContainers : GTok → List GTok
  | .tok _ => []
  | .cont ty s e c l col => .cont ty s e c l col :: subContainersList c
  | .fn ty s e f c l col => .fn ty s e f c l col :: subContainersList c

/-- All container nodes of a forest. -/
def subContainersList : List GTok → List GTok
  | [] => []
  | g :: r => subContainers g ++ subContainersList r

end

theorem gAsCssList_append (a b : List GTok) :
    gAsCssList (a ++ b) = gAsCssList a ++ gAsCssList b := by
  induction a with
  | nil => rfl
  | cons g r ih => simp [gAsCssList, ih]

theorem subContainersList_append (a b : List GTok) :
    subContainersList (a ++ b) = subContainersList a ++ subContainersList b := by
  induction a with
  | nil => rfl
  | cons g r ih => simp [subContainersList, ih]

/-- Canonical closing text for an opener type (what `regroup` writes into
`css_end` when the closer is explicit). -/
def closerCharOf (ty : TokType) : List Char :=
  match pairEnd ty with
  | some (_, ch) => [ch]
  | none => []

/-- A closing token carries its canonical one-character source text (true of
every tokenizer output, proved below). -/
def closerOk (t : Token) : Prop :=
  (t.type = .rparen → t.as_css = [')']) ∧
  (t.type = .rbrack → t.as_css = [']']) ∧
  (t.type = .rbrace → t.as_css = [rbraceChar])

theorem regroupInner_nil (fuel : Nat) (stop : Option TokType) :
    regroupInner fuel stop [] = ([], [], false) := by
  cases fuel <;> rfl

theorem pairEnd_closer {ty ety : TokType} {ech : Char}
    (h : pairEnd ty = some (ety, ech)) {u : Token} (hok : closerOk u)
    (hty : u.type = ety) : u.as_css = [ech] := by
  cases ty <;> simp [pairEnd] at h <;>
    obtain ⟨h1, h2⟩ := h <;> subst h1 <;> subst h2 <;>
    first
    | exact hok.1 hty
    | exact hok.2.1 hty
    | exact hok.2.2 hty

theorem matchLen_chr {fuel : Nat} {c : Char} {s : List Char} {n : Nat}
    (h : matchLen fuel (Rx.chr c) s = some n) : n = 1 ∧ s.take 1 = [c] := by
  match fuel, s with
  | 0, _ => simp [matchLen, mat] at h
  | _ + 1, [] => simp [matchLen, mat] at h
  | _ + 1, d :: t =>
    by_cases hd : d = c
    · subst hd
      simp only [matchLen, mat, Rx.chr] at h
      rw [if_pos (by simp)] at h
      simp only [Option.some.injEq, List.length_cons] at h
      exact ⟨by omega, by simp⟩
    · simp [matchLen, mat, Rx.chr, hd] at h

/-- A `)`/`]`/`}` token in the tokenizer output carries its canonical
one-character source text. -/
theorem tokLoop_closerOk (ic : Bool) :
    ∀ (fuel : Nat) (s : List Char) (line col : Nat),
      ∀ t ∈ tokLoop ic fuel s line col, closerOk t := by
  intro fuel
  induction fuel with
  | zero => intro s line col t ht; simp [tokLoop] at ht
  | succ n ih =>
    intro s line col t ht
    match s with
    | [] => simp [tokLoop] at ht
    | c :: s' =>
      have hclo : ∀ (ty : TokType) (m : Nat), scanOne (c :: s') = some (ty, m) →
          ∀ cl : Char, (ty, Rx.chr cl) ∈ tokenRegexps → (c :: s').take m = [cl] := by
        intro ty m hscan cl hmemcl
        obtain ⟨r, hmem, hml⟩ := scanGo_mem hscan
        have hfind : r = Rx.chr cl := by
          simp only [tokenRegexps, List.mem_cons, List.not_mem_nil, or_false,
            Prod.mk.injEq] at hmem hmemcl
          rcases hmemcl with h | h | h | h | h | h | h | h | h | h | h | h | h |
            h | h | h | h | h | h | h | h | h | h | h | h <;>
            (obtain ⟨hty, _⟩ := h; subst hty; simp_all)
        subst hfind
        obtain ⟨h1, h2⟩ := matchLen_chr hml
        subst h1
        exact h2
      simp only [tokLoop] at ht
      rcases hscan : scanOne (c :: s') with _ | ⟨ty, m⟩ <;> rw [hscan] at ht
      · simp only at ht
        rw [if_neg (by simp)] at ht
        rcases List.mem_cons.mp ht with h | h
        · subst h
          exact ⟨by intro h; simp [mkToken] at h, by intro h; simp [mkToken] at h,
            by intro h; simp [mkToken] at h⟩
        · exact ih _ _ _ t h
      · simp only at ht
        by_cases hskip : ic ∧ (ty = .COMMENT ∨ ty = .BAD_COMMENT)
        · rw [if_pos hskip] at ht
          exact ih _ _ _ t ht
        · rw [if_neg hskip] at ht
          rcases List.mem_cons.mp ht with h | h
          · subst h
            refine ⟨?_, ?_, ?_⟩
            · intro hty
              have : ty = .rparen := by
                cases ty <;> simp [mkToken] at hty <;> (try split at hty) <;> simp_all
              subst this
              rw [mkToken_as_css]
              exact hclo _ _ hscan ')' (by simp [tokenRegexps])
            · intro hty
              have : ty = .rbrack := by
                cases ty <;> simp [mkToken] at hty <;> (try split at hty) <;> simp_all
              subst this
              rw [mkToken_as_css]
              exact hclo _ _ hscan ']' (by simp [tokenRegexps])
            · intro hty
              have : ty = .rbrace := by
                cases ty <;> simp [mkToken] at hty <;> (try split at hty) <;> simp_all
              subst this
              rw [mkToken_as_css]
              exact hclo _ _ hscan rbraceChar (by simp [tokenRegexps])
          · exact ih _ _ _ t h

/-- Full specification of `_regroup_inner`: (A) the call consumes a prefix
of the stream whose source text equals that of the produced forest plus,
when the loop ended at `stop_at`, the closing delimiter; (B) every container
of the produced forest spans a contiguous slice of the consumed text, its
`css_end` is the canonical closing text exactly when its closer was present,
and a container still open when the stream ends runs to the end of the
input. -/
theorem regroupInner_spec :
    ∀ (fuel : Nat) (l : List Token) (stop : Option TokType) (stopCh : Char),
      l.length ≤ fuel →
      (∀ t ∈ l, closerOk t) →
      (∀ sty, stop = some sty → ∀ t ∈ l, t.type = sty → t.as_css = [stopCh]) →
      (∃ consumed, l = consumed ++ (regroupInner fuel stop l).2.1 ∧
        ((regroupInner fuel stop l).2.2 = true →
          catCss consumed = gAsCssList (regroupInner fuel stop l).1 ++ [stopCh]) ∧
        ((regroupInner fuel stop l).2.2 = false →
          (regroupInner fuel stop l).2.1 = [] ∧
          catCss consumed = gAsCssList (regroupInner fuel stop l).1)) ∧
      (∀ C ∈ subContainersList (regroupInner fuel stop l).1,
        (gCssEnd C ≠ [] → gCssEnd C = closerCharOf (gType C) ∧
          ∃ pre post, catCss l = pre ++ gAsCss C ++ post) ∧
        (gCssEnd C = [] →
          ∃ pre, catCss l = pre ++ gAsCss C ∧
            (regroupInner fuel stop l).2.2 = false ∧
            (regroupInner fuel stop l).2.1 = [])) := by
  intro fuel
  induction fuel with
  | zero =>
    intro l stop stopCh hlen hok hstop
    have hl : l = [] := List.length_eq_zero.mp (Nat.le_zero.mp hlen)
    subst hl
    refine ⟨⟨[], by simp [regroupInner], ?_, ?_⟩, ?_⟩
    · intro h; simp [regroupInner] at h
    · intro _; exact ⟨rfl, rfl⟩
    · intro C hC; simp [regroupInner, subContainersList] at hC
  | succ n ih =>
    intro l stop stopCh hlen hok hstop
    match l with
    | [] =>
      refine ⟨⟨[], by simp [regroupInner], ?_, ?_⟩, ?_⟩
      · intro h; simp [regroupInner] at h
      · intro _; exact ⟨rfl, rfl⟩
      · intro C hC; simp [regroupInner, subContainersList] at hC
    | t :: rest =>
      have hlen' : rest.length ≤ n := by
        simp only [List.length_cons] at hlen; omega
      have hokr : ∀ u ∈ rest, closerOk u :=
        fun u hu => hok u (List.mem_cons_of_mem _ hu)
      have hstopr : ∀ sty, stop = some sty →
          ∀ u ∈ rest, u.type = sty → u.as_css = [stopCh] :=
        fun sty hs u hu => hstop sty hs u (List.mem_cons_of_mem _ hu)
      by_cases hsm : some t.type = stop
      · -- the loop stops: the closer is consumed and the call returns
        have hres : regroupInner (n + 1) stop (t :: rest) = ([], rest, true) := by
          simp only [regroupInner]
          rw [if_pos hsm]
        rw [hres]
        have htcss : t.as_css = [stopCh] := by
          obtain ⟨sty, hsty⟩ : ∃ sty, stop = some sty := ⟨t.type, hsm.symm⟩
          have hty : t.type = sty := by
            rw [hsty] at hsm
            exact Option.some.injEq .. ▸ hsm
          exact hstop sty hsty t (List.mem_cons_self _ _) hty
        refine ⟨⟨[t], by simp, ?_, ?_⟩, ?_⟩
        · intro _
          simp [catCss, gAsCssList, htcss]
        · intro h; simp at h
        · intro C hC; simp [subContainersList] at hC
      · rcases hpair : pairEnd t.type with _ | ⟨endTy, endCh⟩
        · -- not a grouping token: yielded as-is
          have hres : regroupInner (n + 1) stop (t :: rest) =
              (.tok t :: (regroupInner n stop rest).1,
               (regroupInner n stop rest).2.1, (regroupInner n stop rest).2.2) := by
            simp only [regroupInner]
            rw [if_neg hsm, hpair]
          rw [hres]
          obtain ⟨⟨c1, hdec, htrue, hfalse⟩, hB⟩ := ih rest stop stopCh hlen' hokr hstopr
          refine ⟨⟨t :: c1, by simp [← hdec], ?_, ?_⟩, ?_⟩
          · intro h
            have h2 := htrue h
            simp [catCss, gAsCssList, GTok.tok, gAsCss, h2]
          · intro h
            obtain ⟨h1, h2⟩ := hfalse h
            exact ⟨h1, by simp [catCss, gAsCssList, gAsCss, h2]⟩
          · intro C hC
            simp only [subContainersList, subContainers, List.nil_append] at hC
            obtain ⟨hBne, hBe⟩ := hB C hC
            constructor
            · intro hne
              obtain ⟨hcl, pre, post, hspan⟩ := hBne hne
              exact ⟨hcl, t.as_css ++ pre, post,
                by simp [catCss, hspan, List.append_assoc]⟩
            · intro he
              obtain ⟨pre, hspan, hf, hr⟩ := hBe he
              exact ⟨t.as_css ++ pre,
                by simp [catCss, hspan, List.append_assoc], hf, hr⟩
        · -- a grouping token: build a container from the inner call
          have hres : regroupInner (n + 1) stop (t :: rest) =
              ((if t.type = .FUNCTION then
                  GTok.fn t.type t.as_css
                    (if (regroupInner n (some endTy) rest).2.2 then [endCh] else [])
                    (tvStr t.value).dropLast (regroupInner n (some endTy) rest).1
                    t.line t.column
                else
                  GTok.cont t.type t.as_css
                    (if (regroupInner n (some endTy) rest).2.2 then [endCh] else [])
                    (regroupInner n (some endTy) rest).1 t.line t.column) ::
                (regroupInner n stop (regroupInner n (some endTy) rest).2.1).1,
               (regroupInner n stop (regroupInner n (some endTy) rest).2.1).2.1,
               (regroupInner n stop (regroupInner n (some endTy) rest).2.1).2.2) := by
            simp only [regroupInner]
            rw [if_neg hsm, hpair]
          rw [hres]
          have hstopInner : ∀ sty, (some endTy : Option TokType) = some sty →
              ∀ u ∈ rest, u.type = sty → u.as_css = [endCh] := by
            intro sty hs u hu hty
            have hsty : endTy = sty := by
              exact Option.some.injEq .. ▸ hs
            subst hsty
            exact pairEnd_closer hpair (hokr u hu) hty
          obtain ⟨⟨c1, hdec1, htrue1, hfalse1⟩, hB1⟩ :=
            ih rest (some endTy) endCh hlen' hokr hstopInner
          set inner := regroupInner n (some endTy) rest with hinner
          have hlen2 : inner.2.1.length ≤ n := by
            have hl2 : rest.length = c1.length + inner.2.1.length := by
              rw [hdec1]; simp
            omega
          have hok2 : ∀ u ∈ inner.2.1, closerOk u := by
            intro u hu
            exact hokr u (by rw [hdec1]; exact List.mem_append_right _ hu)
          have hstop2 : ∀ sty, stop = some sty →
              ∀ u ∈ inner.2.1, u.type = sty → u.as_css = [stopCh] := by
            intro sty hs u hu
            exact hstopr sty hs u (by rw [hdec1]; exact List.mem_append_right _ hu)
          obtain ⟨⟨c2, hdec2, htrue2, hfalse2⟩, hB2⟩ :=
            ih inner.2.1 stop stopCh hlen2 hok2 hstop2
          set outer := regroupInner n stop inner.2.1 with houter
          set built : GTok := (if t.type = .FUNCTION then
              GTok.fn t.type t.as_css (if inner.2.2 then [endCh] else [])
                (tvStr t.value).dropLast inner.1 t.line t.column
            else
              GTok.cont t.type t.as_css (if inner.2.2 then [endCh] else [])
                inner.1 t.line t.column) with hbuilt
          have hbCss : gAsCss built = t.as_css ++ catCss c1 := by
            by_cases hflag : inner.2.2 = true
            · have h2 := htrue1 hflag
              by_cases hf : t.type = .FUNCTION <;>
                simp [hbuilt, hf, hflag, gAsCss, h2, List.append_assoc]
            · have h2 := (hfalse1 (Bool.not_eq_true _ ▸ hflag)).2
              by_cases hf : t.type = .FUNCTION <;>
                simp [hbuilt, hf, hflag, gAsCss, h2]
          have hbEnd : gCssEnd built = (if inner.2.2 then [endCh] else []) := by
            by_cases hf : t.type = .FUNCTION <;> simp [hbuilt, hf, gCssEnd]
          have hbType : gType built = t.type := by
            by_cases hf : t.type = .FUNCTION <;> simp [hbuilt, hf, gType]
          have hbSub : subContainersList (built :: outer.1) =
              built :: (subContainersList inner.1 ++ subContainersList outer.1) := by
            by_cases hf : t.type = .FUNCTION <;>
              simp [hbuilt, hf, subContainersList, subContainers]
          have hcatl : catCss (t :: rest) = t.as_css ++ catCss c1 ++ catCss inner.2.1 := by
            conv => left; rw [show (t :: rest) = t :: (c1 ++ inner.2.1) from by rw [← hdec1]]
            simp [catCss, catCss_append, List.append_assoc]
          refine ⟨⟨t :: c1 ++ c2, ?_, ?_, ?_⟩, ?_⟩
          · -- decomposition
            have : rest = (c1 ++ c2) ++ outer.2.1 := by
              rw [hdec1, hdec2, List.append_assoc]
            simp [this]
          · -- ended at stop
            intro h
            have h2 := htrue2 h
            have hcat2 : catCss (t :: c1 ++ c2) = t.as_css ++ catCss c1 ++ catCss c2 := by
              show t.as_css ++ catCss (c1 ++ c2) = _
              rw [catCss_append, List.append_assoc]
            rw [hcat2, h2]
            show _ = gAsCss built ++ gAsCssList outer.1 ++ [stopCh]
            rw [hbCss]
            simp [List.append_assoc]
          · -- stream exhausted
            intro h
            obtain ⟨h1, h2⟩ := hfalse2 h
            refine ⟨h1, ?_⟩
            have hcat2 : catCss (t :: c1 ++ c2) = t.as_css ++ catCss c1 ++ catCss c2 := by
              show t.as_css ++ catCss (c1 ++ c2) = _
              rw [catCss_append, List.append_assoc]
            rw [hcat2, h2]
            show _ = gAsCss built ++ gAsCssList outer.1
            rw [hbCss]
          · -- containers
            intro C hC
            rw [hbSub] at hC
            rcases List.mem_cons.mp hC with hCb | hC2
            · -- C is the newly built container
              subst hCb
              constructor
              · intro hne
                have hflag : inner.2.2 = true := by
                  by_contra hflag
                  rw [hbEnd] at hne
                  simp [Bool.not_eq_true _ ▸ hflag] at hne
                refine ⟨?_, [], catCss inner.2.1, ?_⟩
                · rw [hbEnd, hflag]
                  simp [hbType, closerCharOf, hpair]
                · rw [hcatl, hbCss]
                  simp [List.append_assoc]
              · intro he
                have hflag : inner.2.2 = false := by
                  by_contra hflag
                  rw [hbEnd] at he
                  simp only [Bool.not_eq_false] at hflag
                  simp [hflag] at he
                have h1 := (hfalse1 hflag).1
                refine ⟨[], ?_, ?_, ?_⟩
                · rw [hcatl, hbCss, h1]
                  simp [catCss]
                · rw [houter, h1, regroupInner_nil]
                · rw [houter, h1, regroupInner_nil]
            · rcases List.mem_append.mp hC2 with hIn | hOut
              · -- C sits inside the new container
                obtain ⟨hBne, hBe⟩ := hB1 C hIn
                constructor
                · intro hne
                  obtain ⟨hcl, pre, post, hspan⟩ := hBne hne
                  refine ⟨hcl, t.as_css ++ pre, post, ?_⟩
                  simp [catCss, hspan, List.append_assoc]
                · intro he
                  obtain ⟨pre, hspan, hf1, hr1⟩ := hBe he
                  refine ⟨t.as_css ++ pre, ?_, ?_, ?_⟩
                  · simp [catCss, hspan, List.append_assoc]
                  · rw [houter, hr1, regroupInner_nil]
                  · rw [houter, hr1, regroupInner_nil]
              · -- C was produced after the new container
                obtain ⟨hBne, hBe⟩ := hB2 C hOut
                constructor
                · intro hne
                  obtain ⟨hcl, pre, post, hspan⟩ := hBne hne
                  refine ⟨hcl, t.as_css ++ catCss c1 ++ pre, post, ?_⟩
                  rw [hcatl, hspan]
                  simp [List.append_assoc]
                · intro he
                  obtain ⟨pre, hspan, hf2, hr2⟩ := hBe he
                  refine ⟨t.as_css ++ catCss c1 ++ pre, ?_, hf2, hr2⟩
                  rw [hcatl, hspan]
                  simp [List.append_assoc]

/-- C8: For every container token produced by `regroup` (from the
comment-preserving tokenization, under which token text tiles the source)
whose matching closer was present in the input, `as_css` — the concatenation
of `css_start`, the children's `as_css` in order, and `css_end` — equals the
original source slice from its opener through its closer inclusive (it is a
contiguous slice of S, starting with the opener text and ending with the
canonical closer text); every container still open when the token stream
ends is emitted with `css_end` equal to the empty string and its `as_css`
runs to the end of the source. -/
theorem c8_regroup_container_spans (S : List Char) (C : GTok)
    (h : C ∈ subContainersList (regroup (tokenize_flat false S))) :
    (gCssEnd C ≠ [] →
      gCssEnd C = closerCharOf (gType C) ∧ ∃ pre post, S = pre ++ gAsCss C ++ post) ∧
    (gCssEnd C = [] → ∃ pre, S = pre ++ gAsCss C) := by
  have hspec := regroupInner_spec (tokenize_flat false S).length
    (tokenize_flat false S) none ')' (le_refl _)
    (fun t ht => tokLoop_closerOk false _ _ _ _ t ht)
    (fun sty hs => by simp at hs)
  have hcat : catCss (tokenize_flat false S) = S := c1_tokenize_flat_round_trip S
  obtain ⟨_, hB⟩ := hspec
  obtain ⟨hBne, hBe⟩ := hB C h
  constructor
  · intro hne
    obtain ⟨hcl, pre, post, hspan⟩ := hBne hne
    exact ⟨hcl, pre, post, by rw [← hcat]; exact hspan⟩
  · intro he
    obtain ⟨pre, hspan, _, _⟩ := hBe he
    exact ⟨pre, by rw [← hcat]; exact hspan⟩

/-- Witness for `c8_regroup_container_spans`: in `a[b]` the bracket
container spans `[b]`, with explicit `css_end` `]`; in `a[b` the container
is implicitly closed with empty `css_end` and spans to the end. -/
theorem c8_regroup_container_spans_witness :
    ((GTok.cont .lbrack ['['] [']']
        [GTok.tok ⟨.IDENT, ['b'], .ofStr ['b'], none, 1, 3⟩] 1 2) ∈
      subContainersList (regroup (tokenize_flat false ['a', '[', 'b', ']'])) ∧
      ∃ pre post, ['a', '[', 'b', ']'] =
        pre ++ gAsCss (GTok.cont .lbrack ['['] [']']
          [GTok.tok ⟨.IDENT, ['b'], .ofStr ['b'], none, 1, 3⟩] 1 2) ++ post) ∧
    ((GTok.cont .lbrack ['['] []
        [GTok.tok ⟨.IDENT, ['b'], .ofStr ['b'], none, 1, 3⟩] 1 2) ∈
      subContainersList (regroup (tokenize_flat false ['a', '[', 'b'])) ∧
      ∃ pre, ['a', '[', 'b'] =
        pre ++ gAsCss (GTok.cont .lbrack ['['] []
          [GTok.tok ⟨.IDENT, ['b'], .ofStr ['b'], none, 1, 3⟩] 1 2)) := by
  have hmem1 : (GTok.cont .lbrack ['['] [']']
      [GTok.tok ⟨.IDENT, ['b'], .ofStr ['b'], none, 1, 3⟩] 1 2) ∈
      subContainersList (regroup (tokenize_flat false ['a', '[', 'b', ']'])) :=
    List.Mem.head _
  have hmem2 : (GTok.cont .lbrack ['['] []
      [GTok.tok ⟨.IDENT, ['b'], .ofStr ['b'], none, 1, 3⟩] 1 2) ∈
      subContainersList (regroup (tokenize_flat false ['a', '[', 'b'])) :=
    List.Mem.head _
  refine ⟨⟨hmem1, ?_⟩, ⟨hmem2, ?_⟩⟩
  · exact ((c8_regroup_container_spans _ _ hmem1).1 (by simp [gCssEnd])).2
  · exact (c8_regroup_container_spans _ _ hmem2).2 (by simp [gCssEnd])

/-! ### The CSS 2.1 parser (`css21.py`) -/

/-- `ParseError`: source position and reason. -/
structure ParseErr where
  line : Nat
  column : Nat
  reason : String
  deriving DecidableEq, Repr

/-- The Python type string of a token type, as interpolated into error
reasons (`'{0} token'.format(token.type)` etc.). -/
def typeName : TokType → String
  | .S => "S" | .URI => "URI" | .BAD_URI => "BAD_URI" | .FUNCTION => "FUNCTION"
  | .UNICODE_RANGE => "UNICODE-RANGE" | .IDENT => "IDENT"
  | .ATKEYWORD => "ATKEYWORD" | .HASH => "HASH" | .DIMENSION => "DIMENSION"
  | .PERCENTAGE => "PERCENTAGE" | .NUMBER => "NUMBER" | .INTEGER => "INTEGER"
  | .STRING => "STRING" | .BAD_STRING => "BAD_STRING" | .COMMENT => "COMMENT"
  | .BAD_COMMENT => "BAD_COMMENT" | .DELIM => "DELIM" | .CDO => "CDO"
  | .CDC => "CDC" | .colon => ":" | .semicolon => ";"
  | .lbrace => "\x7b" | .rbrace => "\x7d" | .lparen => "(" | .rparen => ")"
  | .lbrack => "[" | .rbrack => "]" | .SELECTOR => "SELECTOR"
  | .VALUES => "VALUES"

/-- `ParseError(subject, reason)` with a token subject. -/
def gErr (g : GTok) (reason : String) : ParseErr := ⟨gLine g, gCol g, reason⟩

/-- Children of a grouped token (atomic tokens have none). -/
def gContent : GTok → List GTok
  | .tok _ => []
  | .cont _ _ _ c _ _ => c
  | .fn _ _ _ _ c _ _ => c

/-- `token.value` of an atomic token (`None` for containers, which have no
`value` attribute). -/
def gValue : GTok → Option TokValue
  | .tok t => some t.value
  | _ => none

/-- String payload of an atomic token's value (empty for containers or
non-string values; only used where the source guarantees a string). -/
def gValStr : GTok → List Char
  | .tok t => tvStr t.value
  | _ => []

/-- Python truthiness of a token: `ContainerToken` defines `__len__`, so an
empty container is falsy; atomic tokens are always truthy. -/
def gFalsy : GTok → Bool
  | .cont _ _ _ [] _ _ => true
  | .fn _ _ _ _ [] _ _ => true
  | _ => false

mutual

/-- Node count of a token tree (fuel measure for the rule parser). -/
def gsize : GTok → Nat
  | .tok _ => 1
  | .cont _ _ _ c _ _ => 1 + gsizeList c
  | .fn _ _ _ _ c _ _ => 1 + gsizeList c

/-- Node count of a forest. -/
def gsizeList : List GTok → Nat
  | [] => 0
  | g :: r => gsize g + gsizeList r

end

/-- `Declaration`: lower-cased name, VALUES container, priority, position. -/
structure Decl where
  name : List Char
  value : GTok
  priority : Option String
  line : Nat
  column : Nat

/-- A parsed rule: `RuleSet`, `ImportRule`, `MediaRule` or `PageRule`
(the only objects `CSS21Parser.parse_at_rule`/`parse_ruleset` produce). -/
inductive Rule where
  | ruleset (selector : GTok) (declarations : List Decl) (line column : Nat)
  | importR (uri : TokValue) (media : List (List Char)) (line column : Nat)
  | mediaR (media : List (List Char)) (rules : List Rule) (line column : Nat)
  | pageR (selector : Option (List Char)) (specificity : List Nat)
      (declarations : List Decl) (at_rules : List Rule) (line column : Nat)

/-- `at_keyword` of a rule (`None` on rulesets). -/
def atKeywordOf : Rule → Option String
  | .ruleset _ _ _ _ => none
  | .importR _ _ _ _ => some "@import"
  | .mediaR _ _ _ _ => some "@media"
  | .pageR _ _ _ _ _ _ => some "@page"

/-- Line of a rule (for `ParseError(previous_rule, ...)`). -/
def ruleLine : Rule → Nat
  | .ruleset _ _ l _ => l
  | .importR _ _ l _ => l
  | .mediaR _ _ l _ => l
  | .pageR _ _ _ _ l _ => l

/-- Column of a rule. -/
def ruleCol : Rule → Nat
  | .ruleset _ _ _ c => c
  | .importR _ _ _ c => c
  | .mediaR _ _ _ c => c
  | .pageR _ _ _ _ _ c => c

/-- An unparsed at-rule (`AtRule`): lower-cased keyword, head tokens, optional
`{` body, position of the at-keyword token. -/
structure AtRuleU where
  at_keyword : List Char
  head : List GTok
  body : Option GTok
  line : Nat
  column : Nat

/-- A parsed stylesheet. -/
structure Stylesheet where
  rules : List Rule
  errors : List ParseErr
  encoding : Option String

/-- The `validate_any` check on an atomic (non-recursing) token type. -/
def validateAnyAtomic (ty : TokType) (line col : Nat) (context : String) :
    Except ParseErr Unit :=
  if ty = .S ∨ ty = .IDENT ∨ ty = .DIMENSION ∨ ty = .PERCENTAGE ∨ ty = .NUMBER ∨
      ty = .INTEGER ∨ ty = .URI ∨ ty = .DELIM ∨ ty = .STRING ∨ ty = .HASH ∨
      ty = .colon ∨ ty = .UNICODE_RANGE then .ok ()
  else
    .error ⟨line, col,
      (if ty = .rbrace ∨ ty = .rparen ∨ ty = .rbrack then "unmatched"
        else "unexpected") ++ " " ++ typeName ty ++ " token in " ++ context⟩

mutual

/-- `validate_any(token, context)`: FUNCTION/(/[ recurse into their content
with the type string as new context; otherwise check the whitelist. -/
def validate_any : GTok → String → Except ParseErr Unit
  | .tok t, context => validateAnyAtomic t.type t.line t.column context
  | .cont ty _ _ content line col, context =>
    if ty = .FUNCTION ∨ ty = .lparen ∨ ty = .lbrack then
      validateAnyList content (typeName ty)
    else validateAnyAtomic ty line col context
  | .fn ty _ _ _ content line col, context =>
    if ty = .FUNCTION ∨ ty = .lparen ∨ ty = .lbrack then
      validateAnyList content (typeName ty)
    else validateAnyAtomic ty line col context

/-- Validate each token of a list against "any" (first error wins). -/
def validateAnyList : List GTok → String → Except ParseErr Unit
  | [], _ => .ok ()
  | g :: r, context => do
    validate_any g context
    validateAnyList r context

end

/-- `validate_block(tokens, context)`: `{` blocks recurse, `;`/ATKEYWORD are
allowed, everything else is validated as "any". -/
def validate_block : List GTok → String → Except ParseErr Unit
  | [], _ => .ok ()
  | .cont .lbrace s e content line col :: r, context => do
    validate_block content context
    let _ := (s, e, line, col)
    validate_block r context
  | g :: r, context =>
    if gType g = .semicolon ∨ gType g = .ATKEYWORD then validate_block r context
    else do
      validate_any g context
      validate_block r context

/-- Strip trailing whitespace tokens (`while x and x[-1].type == 'S': x.pop()`). -/
def dropTrailingS (l : List GTok) : List GTok :=
  (l.reverse.dropWhile (fun g => decide (gType g = .S))).reverse

/-- The accumulation loop of `parse_value`: skip leading whitespace, validate
(`{` via `validate_block`, otherwise `validate_any`), keep the rest. -/
def parseValueGo : List GTok → List GTok → Except ParseErr (List GTok)
  | acc, [] => .ok acc
  | acc, g :: r =>
    if acc.isEmpty ∧ gType g = .S then parseValueGo acc r
    else do
      (if gType g = .lbrace then validate_block (gContent g) "property value"
        else validate_any g "property value")
      parseValueGo (acc ++ [g]) r

/-- `parse_value(tokens)`. -/
def parse_value (tokens : List GTok) : Except ParseErr (List GTok) := do
  let content ← parseValueGo [] tokens
  return dropTrailingS content

/-- The backwards walk of `parse_value_priority` after the final
`IDENT "important"` was popped, over the reversed remaining value: find a
`DELIM "!"` across whitespace; on success also strip whitespace before the
`!` and require a non-empty remaining value. -/
def pvpLoopRev (original_value : List GTok) : List GTok → Except ParseErr (List GTok × Option String)
  | [] => .ok (original_value, none)
  | tk :: rvalue =>
    if gType tk = .DELIM ∧ gValue tk = some (.ofStr ['!']) then
      let v2 := dropTrailingS rvalue.reverse
      if v2.isEmpty then .error (gErr tk "expected a value before !important")
      else .ok (v2, some "important")
    else if gType tk ≠ .S then .ok (original_value, none)
    else pvpLoopRev original_value rvalue

/-- `parse_value_priority(original_value)`: split a trailing
`! important` marker off a (non-empty) value token list. -/
def parse_value_priority (original_value : List GTok) :
    Except ParseErr (List GTok × Option String) :=
  match original_value.reverse with
  | lastTok :: rrest =>
    if gType lastTok = .IDENT ∧ gValue lastTok = some (.ofStr "important".toList) then
      pvpLoopRev original_value rrest
    else .ok (original_value, none)
  | [] => .ok (original_value, none)
    -- unreachable: the source pops from a value the caller checked non-empty

/-- The `for token in tokens` loop of `parse_declaration` looking for `:`
(`last` is the most recently read token, for the end-of-input error). -/
def pdColon (last : GTok) : List GTok → Except ParseErr (GTok × List GTok)
  | [] => .error (gErr last "expected \x27:\x27")
  | g :: r =>
    if gType g = .colon then .ok (g, r)
    else if gType g ≠ .S then
      .error (gErr g ("expected \x27:\x27, got " ++ typeName (gType g)))
    else pdColon g r

/-- `parse_declaration(tokens)`. -/
def parse_declaration (tokens : List GTok) : Except ParseErr Decl :=
  match tokens with
  | [] => .error ⟨0, 0, "expected a property name, got nothing"⟩
    -- unreachable: the source's `next(tokens)` assumes at least one token
  | name_token :: rest =>
    if gType name_token = .IDENT then do
      let property_name := asciiLower (gValStr name_token)
      let p ← pdColon name_token rest
      let value ← parse_value p.2
      if value.isEmpty then throw (gErr p.1 "expected a property value")
      let vp ← parse_value_priority value
      let startTok := vp.1.head?.getD p.1
      return ⟨property_name,
        GTok.cont .VALUES [] [] vp.1 (gLine startTok) (gCol startTok),
        vp.2, gLine name_token, gCol name_token⟩
    else
      .error (gErr name_token
        ("expected a property name, got " ++ typeName (gType name_token)))

/-- The split-at-`;` loop of `parse_declaration_list` (leading whitespace of
each part skipped, empty parts discarded). -/
def splitSemiGo (parts : List (List GTok)) (cur : List GTok) :
    List GTok → List (List GTok)
  | [] => if cur.isEmpty then parts else parts ++ [cur]
  | g :: r =>
    if gType g = .semicolon then
      if cur.isEmpty then splitSemiGo parts [] r
      else splitSemiGo (parts ++ [cur]) [] r
    else if cur.isEmpty = false ∨ gType g ≠ .S then splitSemiGo parts (cur ++ [g]) r
    else splitSemiGo parts cur r

/-- Split on `;` as in `parse_declaration_list`. -/
def splitSemi (tokens : List GTok) : List (List GTok) := splitSemiGo [] [] tokens

/-- Parse each part, keeping successes and errors separately (in order). -/
def pdlGo : List (List GTok) → List Decl × List ParseErr
  | [] => ([], [])
  | part :: r =>
    let p := pdlGo r
    match parse_declaration part with
    | .ok d => (d :: p.1, p.2)
    | .error e => (p.1, e :: p.2)

/-- `parse_declaration_list(tokens)`. -/
def parse_declaration_list (tokens : List GTok) : List Decl × List ParseErr :=
  pdlGo (splitSemi tokens)

/-- The head-collection loop of `read_at_rule`: collect until `{` or `;`
(skipping whitespace just after the keyword), strip trailing whitespace,
validate the head.  On any path the tokens up to and including the
terminator are consumed. -/
def raGo (kw : List Char) (atTok : GTok) (head : List GTok) (last : GTok) :
    List GTok → (Except ParseErr AtRuleU) × List GTok
  | [] => (.error (gErr last "incomplete at-rule"), [])
  | g :: r =>
    if gType g = .lbrace ∨ gType g = .semicolon then
      let h2 := dropTrailingS head
      match validateAnyList h2 "at-rule head" with
      | .error e => (.error e, r)
      | .ok _ =>
        (.ok ⟨kw, h2, if gType g = .lbrace then some g else none,
          gLine atTok, gCol atTok⟩, r)
    else if head.isEmpty = false ∨ gType g ≠ .S then raGo kw atTok (head ++ [g]) g r
    else raGo kw atTok head g r

/-- `read_at_rule(at_keyword_token, tokens)`; also returns the rest of the
token stream (the iterator state). -/
def read_at_rule (at_keyword_token : GTok) (tokens : List GTok) :
    (Except ParseErr AtRuleU) × List GTok :=
  raGo (asciiLower (gValStr at_keyword_token)) at_keyword_token []
    at_keyword_token tokens

/-- The selector-collection loop of `parse_ruleset`: collect until `{`,
strip trailing whitespace, validate, wrap into a SELECTOR container and
parse the block as a declaration list. -/
def prGo (first : GTok) (selParts : List GTok) (last : GTok) :
    List GTok → (Except ParseErr (Rule × List ParseErr)) × List GTok
  | [] => (.error (gErr last "no declaration block found for ruleset"), [])
  | g :: r =>
    if gType g = .lbrace then
      let sp := dropTrailingS selParts
      match validateAnyList sp "selector" with
      | .error e => (.error e, r)
      | .ok _ =>
        let startTok := sp.head?.getD g
        let selector := GTok.cont .SELECTOR [] [] sp (gLine startTok) (gCol startTok)
        let p := parse_declaration_list (gContent g)
        (.ok (.ruleset selector p.1 (gLine first) (gCol first), p.2), r)
    else prGo first (selParts ++ [g]) g r

/-- `parse_ruleset(first_token, tokens)`. -/
def parse_ruleset (first_token : GTok) (tokens : List GTok) :
    (Except ParseErr (Rule × List ParseErr)) × List GTok :=
  prGo first_token [] first_token (first_token :: tokens)

mutual

/-- Separator state of `parse_media`: after a media type, expect end of
input (or a falsy token) or a comma. -/
def pmSep (acc : List (List Char)) : List GTok → Except ParseErr (List (List Char))
  | [] => .ok acc
  | g :: r =>
    if gFalsy g then .ok acc
    else if gType g = .DELIM ∧ gValue g = some (.ofStr [',']) then pmSkip acc g r
    else .error (gErr g ("expected a comma, got " ++ typeName (gType g)))

/-- Whitespace-skipping state after a comma (`last` = most recent token, the
subject of the trailing-comma error), then a media type IDENT. -/
def pmSkip (acc : List (List Char)) (last : GTok) :
    List GTok → Except ParseErr (List (List Char))
  | [] => .error (gErr last "expected a media type")
  | g :: r =>
    if gFalsy g then .error (gErr last "expected a media type")
    else if gType g = .S then pmSkip acc g r
    else if gType g = .IDENT then pmSep (acc ++ [asciiLower (gValStr g)]) r
    else .error (gErr g ("expected a media type, got " ++ typeName (gType g)))

end

/-- `parse_media(tokens)` for CSS 2.1: a comma-separated list of IDENT media
types, lower-cased. -/
def parse_media (tokens : List GTok) : Except ParseErr (List (List Char)) :=
  match tokens with
  | [] => .error ⟨0, 0, "expected a media type, got nothing"⟩
    -- unreachable: the source's `next(tokens)` assumes a non-empty iterable
  | g :: r =>
    if gType g = .IDENT then pmSep [asciiLower (gValStr g)] r
    else .error (gErr g ("expected a media type, got " ++ typeName (gType g)))

/-- `parse_page_selector(head)` of `CSS21Parser`. -/
def parse_page_selector (head : List GTok) :
    Except ParseErr (Option (List Char) × List Nat) :=
  match head with
  | [] => .ok (none, [0, 0])
  | [a, b] =>
    if gType a = .colon ∧ gType b = .IDENT then
      let spec : Option (List Nat) :=
        match gValue b with
        | some (.ofStr v) =>
          if v = "first".toList then some [1, 0]
          else if v = "left".toList then some [0, 1]
          else if v = "right".toList then some [0, 1]
          else none
        | _ => none
      match spec with
      | some sp => .ok (some (gValStr b), sp)
      | none => .error (gErr a "invalid @page selector")
    else .error (gErr a "invalid @page selector")
  | a :: _ => .error (gErr a "invalid @page selector")

/-- The `for previous_rule in previous_rules` check of the `@import` branch:
first previous rule whose at-keyword is neither `@charset` nor `@import`. -/
def findBadPrev : List Rule → Option Rule
  | [] => none
  | r :: rest =>
    if atKeywordOf r = some "@charset" ∨ atKeywordOf r = some "@import" then
      findBadPrev rest
    else some r

/-- `'an {0} rule'.format(at_keyword)` or `'a ruleset'`. -/
def prevDesc (r : Rule) : String :=
  match atKeywordOf r with
  | some kw => "an " ++ kw ++ " rule"
  | none => "a ruleset"

/-- An exception escaping `parse_at_rule`: either a `ParseError` (which the
`except ParseError` handlers in `parse_rules`/`parse_page_block` catch) or
the AttributeError raised inside `ParseError.__init__` itself when the error
subject is `None` (`self.line = subject.line`), which nothing catches. -/
inductive PyExc where
  | parseError (e : ParseErr)
  | attributeError
  deriving DecidableEq, Repr

mutual

/-- `parse_rules(tokens, errors, context)`: the statement loop, with the
parsed-rules and error accumulators made explicit; `none` when an uncaught
AttributeError aborts the whole parse.  One fuel per statement token;
`gsizeList` of the input plus one suffices. -/
def parse_rules_go : Nat → String → List GTok → List Rule → List ParseErr →
    Option (List Rule × List ParseErr)
  | 0, _, _, rules, errs => some (rules, errs)
    -- fuel exhaustion (unreachable from the wrappers below)
  | _ + 1, _, [], rules, errs => some (rules, errs)
  | fuel + 1, ctx, g :: r, rules, errs =>
    if gType g = .S ∨ gType g = .CDO ∨ gType g = .CDC then
      parse_rules_go fuel ctx r rules errs
    else if gType g = .ATKEYWORD then
      match read_at_rule g r with
      | (.ok rule, r2) =>
        match parse_at_rule fuel rule rules errs ctx with
        | .ok (res, errs2) => parse_rules_go fuel ctx r2 (rules ++ [res]) errs2
        | .error (.parseError e) => parse_rules_go fuel ctx r2 rules (errs ++ [e])
        | .error .attributeError => none
      | (.error e, r2) => parse_rules_go fuel ctx r2 rules (errs ++ [e])
    else
      match parse_ruleset g r with
      | (.ok p, r2) => parse_rules_go fuel ctx r2 (rules ++ [p.1]) (errs ++ p.2)
      | (.error e, r2) => parse_rules_go fuel ctx r2 rules (errs ++ [e])

/-- `CSS21Parser.parse_at_rule(rule, previous_rules, errors, context)`:
either a parsed rule together with the updated error list, or the escaping
exception. -/
def parse_at_rule : Nat → AtRuleU → List Rule → List ParseErr → String →
    Except PyExc (Rule × List ParseErr)
  | 0, _, _, _, _ => .error (.parseError ⟨0, 0, "out of fuel (unreachable)"⟩)
  | fuel + 1, rule, previous_rules, errs, context =>
    if rule.at_keyword = "@page".toList then
      if context ≠ "stylesheet" then
        .error (.parseError ⟨rule.line, rule.column,
          "@page rule not allowed in " ++ context⟩)
      else
        match parse_page_selector rule.head with
        | .error e => .error (.parseError e)
        | .ok sel =>
          match rule.body with
          | none =>
            .error (.parseError ⟨rule.line, rule.column,
              "invalid @page rule: missing block"⟩)
          | some b =>
            match parse_page_block_go fuel (gContent b) [] [] errs with
            | none => .error .attributeError
            | some p =>
              .ok (.pageR sel.1 sel.2 p.1 p.2.1 rule.line rule.column, p.2.2)
    else if rule.at_keyword = "@media".toList then
      if context ≠ "stylesheet" then
        .error (.parseError ⟨rule.line, rule.column,
          "@media rule not allowed in " ++ context⟩)
      else if rule.head.isEmpty then
        -- the source raises `ParseError(rule.body, ...)`; with no body the
        -- subject is `None`, `ParseError.__init__` reads `None.line`, and
        -- the construction itself raises an uncaught AttributeError
        (match rule.body with
          | some b => .error (.parseError (gErr b "expected media types for @media"))
          | none => .error .attributeError)
      else
        match parse_media rule.head with
        | .error e => .error (.parseError e)
        | .ok media =>
          match rule.body with
          | none =>
            .error (.parseError ⟨rule.line, rule.column,
              "invalid @media rule: missing block"⟩)
          | some b =>
            match parse_rules_go fuel "@media" (gContent b) [] errs with
            | none => .error .attributeError
            | some p => .ok (.mediaR media p.1 rule.line rule.column, p.2)
    else if rule.at_keyword = "@import".toList then
      if context ≠ "stylesheet" then
        .error (.parseError ⟨rule.line, rule.column,
          "@import rule not allowed in " ++ context⟩)
      else
        match findBadPrev previous_rules with
        | some pr =>
          .error (.parseError ⟨ruleLine pr, ruleCol pr,
            "@import rule not allowed after " ++ prevDesc pr⟩)
        | none =>
          match rule.head with
          | [] =>
            .error (.parseError ⟨rule.line, rule.column,
              "expected URI or STRING for @import rule"⟩)
          | h0 :: htail =>
            if gType h0 ≠ .URI ∧ gType h0 ≠ .STRING then
              .error (.parseError ⟨rule.line, rule.column,
                "expected URI or STRING for @import rule, got " ++ typeName (gType h0)⟩)
            else
              let mediaRes : Except ParseErr (List (List Char)) :=
                if htail.isEmpty then .ok ["all".toList]
                else
                  let tail2 := htail.dropWhile (fun u => decide (gType u = .S))
                  if tail2.isEmpty then .ok ["all".toList]
                    -- unreachable: the core parser stripped trailing whitespace
                  else parse_media tail2
              match mediaRes with
              | .error e => .error (.parseError e)
              | .ok media =>
                match rule.body with
                | some b => .error (.parseError (gErr b "expected \x27;\x27, got a block"))
                | none =>
                  .ok (.importR (gValue h0 |>.getD (.ofStr [])) media
                    rule.line rule.column, errs)
    else if rule.at_keyword = "@charset".toList then
      .error (.parseError ⟨rule.line, rule.column,
        "mis-placed or malformed @charset rule"⟩)
    else
      .error (.parseError ⟨rule.line, rule.column,
        "unknown at-rule in " ++ context ++ " context: " ++ String.mk rule.at_keyword⟩)

/-- `parse_page_block(body, errors)`: at-keywords start nested at-rules
(parsed under context `@page`); any other non-whitespace token starts a
declaration, collected by `while token and token.type != \x27;\x27` — the
run stops at a `;` or at a falsy (empty-content) container, either of which
is consumed; whitespace between declarations is skipped.  Accumulators:
declarations, at-rules, errors; `none` when a nested at-rule aborts with an
uncaught AttributeError. -/
def parse_page_block_go : Nat → List GTok → List Decl → List Rule →
    List ParseErr → Option (List Decl × List Rule × List ParseErr)
  | 0, _, decls, atrs, errs => some (decls, atrs, errs)
    -- fuel exhaustion (unreachable from the wrappers below)
  | _ + 1, [], decls, atrs, errs => some (decls, atrs, errs)
  | fuel + 1, g :: r, decls, atrs, errs =>
    if gType g = .ATKEYWORD then
      match read_at_rule g r with
      | (.ok rule, r2) =>
        match parse_at_rule fuel rule atrs errs "@page" with
        | .ok (res, errs2) => parse_page_block_go fuel r2 decls (atrs ++ [res]) errs2
        | .error (.parseError e) => parse_page_block_go fuel r2 decls atrs (errs ++ [e])
        | .error .attributeError => none
      | (.error e, r2) => parse_page_block_go fuel r2 decls atrs (errs ++ [e])
    else if gType g ≠ .S then
      let declToks := (g :: r).takeWhile
        (fun u => !(gFalsy u || decide (gType u = .semicolon)))
      let r2 := ((g :: r).dropWhile
        (fun u => !(gFalsy u || decide (gType u = .semicolon)))).drop 1
      if declToks.isEmpty then parse_page_block_go fuel r2 decls atrs errs
      else
        match parse_declaration declToks with
        | .ok d => parse_page_block_go fuel r2 (decls ++ [d]) atrs errs
        | .error e => parse_page_block_go fuel r2 decls atrs (errs ++ [e])
    else parse_page_block_go fuel r decls atrs errs

end

/-- `_remove_at_charset(tokens)`: drop a valid leading
`@charset " ... ";` four-token prefix. -/
def remove_at_charset (tokens : List GTok) : List GTok :=
  match tokens with
  | a :: sp :: st :: sc :: rest =>
    if gType a = .ATKEYWORD ∧ gType sp = .S ∧ gType st = .STRING ∧
        gType sc = .semicolon ∧ gValue a = some (.ofStr "@charset".toList) ∧
        gValue sp = some (.ofStr [' ']) ∧ (gAsCss st).head? = some '"' then
      rest
    else tokens
  | _ => tokens

/-- `CSS21Parser.parse_stylesheet(css_unicode, encoding)`: tokenize and
group, drop a valid `@charset` prefix when a (truthy) encoding is given,
then parse the rules in context `stylesheet`; `none` when the parse aborts
with an uncaught AttributeError (no Stylesheet is ever constructed). -/
def parse_stylesheet (css_unicode : List Char) (encoding : Option String) :
    Option Stylesheet :=
  let tokens := tokenize_grouped css_unicode
  let tokens2 :=
    match encoding with
    | some e => if e ≠ "" then remove_at_charset tokens else tokens
    | none => tokens
  (parse_rules_go (gsizeList tokens2 + 1) "stylesheet" tokens2 [] []).map
    (fun p => ⟨p.1, p.2, encoding⟩)

/-- `CSS21Parser.parse_style_attr(css_source)`. -/
def parse_style_attr (css_source : List Char) : List Decl × List ParseErr :=
  parse_declaration_list (tokenize_grouped css_source)

/-! ### C2: additive errors, surviving siblings -/

/-- Accumulator decomposition for the rule-parsing trio: whenever a loop
completes (no uncaught AttributeError), the rule/declaration/at-rule
accumulators and the error list are only ever appended to. -/
lemma parse_acc (fuel : Nat) :
    (∀ ctx toks rules errs res,
      parse_rules_go fuel ctx toks rules errs = some res →
      ∃ nr ne, res = (rules ++ nr, errs ++ ne)) ∧
    (∀ rule prules errs ctx res errs2,
      parse_at_rule fuel rule prules errs ctx = .ok (res, errs2) →
      ∃ ne, errs2 = errs ++ ne) ∧
    (∀ toks decls atrs errs res,
      parse_page_block_go fuel toks decls atrs errs = some res →
      ∃ nd na ne, res = (decls ++ nd, atrs ++ na, errs ++ ne)) := by
  induction fuel with
  | zero =>
    refine ⟨?_, ?_, ?_⟩
    · intro ctx toks rules errs res h
      simp only [parse_rules_go, Option.some.injEq] at h
      exact ⟨[], [], by simp [← h]⟩
    · intro rule prules errs ctx res errs2 h
      simp [parse_at_rule] at h
    · intro toks decls atrs errs res h
      simp only [parse_page_block_go, Option.some.injEq] at h
      exact ⟨[], [], [], by simp [← h]⟩
  | succ fuel ih =>
    obtain ⟨ihR, ihA, ihP⟩ := ih
    refine ⟨?_, ?_, ?_⟩
    · intro ctx toks rules errs res hres
      match toks with
      | [] =>
        simp only [parse_rules_go, Option.some.injEq] at hres
        exact ⟨[], [], by simp [← hres]⟩
      | g :: r =>
        by_cases h1 : gType g = .S ∨ gType g = .CDO ∨ gType g = .CDC
        · simp only [parse_rules_go, if_pos h1] at hres
          exact ihR ctx r rules errs res hres
        · by_cases h2 : gType g = .ATKEYWORD
          · rcases hra : read_at_rule g r with ⟨e | rule, r2⟩
            · simp only [parse_rules_go, if_neg h1, if_pos h2, hra] at hres
              obtain ⟨nr, ne, hr⟩ := ihR ctx r2 rules (errs ++ [e]) res hres
              exact ⟨nr, e :: ne, by rw [hr]; simp⟩
            · rcases hpa : parse_at_rule fuel rule rules errs ctx with pe | ⟨res2, errs2⟩
              · cases pe with
                | parseError e =>
                  simp only [parse_rules_go, if_neg h1, if_pos h2, hra, hpa] at hres
                  obtain ⟨nr, ne, hr⟩ := ihR ctx r2 rules (errs ++ [e]) res hres
                  exact ⟨nr, e :: ne, by rw [hr]; simp⟩
                | attributeError =>
                  simp only [parse_rules_go, if_neg h1, if_pos h2, hra, hpa] at hres
                  exact Option.noConfusion hres
              · obtain ⟨ne0, he⟩ := ihA rule rules errs ctx res2 errs2 hpa
                simp only [parse_rules_go, if_neg h1, if_pos h2, hra, hpa] at hres
                obtain ⟨nr, ne, hr⟩ := ihR ctx r2 (rules ++ [res2]) errs2 res hres
                exact ⟨res2 :: nr, ne0 ++ ne, by rw [hr, he]; simp⟩
          · rcases hrs : parse_ruleset g r with ⟨e | p, r2⟩
            · simp only [parse_rules_go, if_neg h1, if_neg h2, hrs] at hres
              obtain ⟨nr, ne, hr⟩ := ihR ctx r2 rules (errs ++ [e]) res hres
              exact ⟨nr, e :: ne, by rw [hr]; simp⟩
            · simp only [parse_rules_go, if_neg h1, if_neg h2, hrs] at hres
              obtain ⟨nr, ne, hr⟩ := ihR ctx r2 (rules ++ [p.1]) (errs ++ p.2) res hres
              exact ⟨p.1 :: nr, p.2 ++ ne, by rw [hr]; simp⟩
    · intro rule prules errs ctx res errs2 h
      by_cases hp : rule.at_keyword = "@page".toList
      · simp only [parse_at_rule, if_pos hp] at h
        split at h
        · exact Except.noConfusion h
        · split at h
          · exact Except.noConfusion h
          · split at h
            · exact Except.noConfusion h
            · split at h
              · exact Except.noConfusion h
              · rename_i p heqp
                injection h with h1
                injection h1 with ha hb
                subst hb
                obtain ⟨nd, na, ne, hP⟩ := ihP _ [] [] errs p heqp
                exact ⟨ne, by simp [hP]⟩
      · by_cases hm : rule.at_keyword = "@media".toList
        · simp only [parse_at_rule, if_neg hp, if_pos hm] at h
          repeat' split at h
          all_goals try exact Except.noConfusion h
          rename_i p heqp
          injection h with h1
          injection h1 with ha hb
          subst hb
          obtain ⟨nr, ne, hR⟩ := ihR "@media" _ [] errs p heqp
          exact ⟨ne, by simp [hR]⟩
        · by_cases hi : rule.at_keyword = "@import".toList
          · simp only [parse_at_rule, if_neg hp, if_neg hm, if_pos hi] at h
            repeat' split at h
            all_goals try exact Except.noConfusion h
            all_goals
              injection h with h1
              injection h1 with ha hb
              subst hb
              exact ⟨[], by simp⟩
          · simp only [parse_at_rule, if_neg hp, if_neg hm, if_neg hi] at h
            split at h
            · exact Except.noConfusion h
            · exact Except.noConfusion h
    · intro toks decls atrs errs res hres
      match toks with
      | [] =>
        simp only [parse_page_block_go, Option.some.injEq] at hres
        exact ⟨[], [], [], by simp [← hres]⟩
      | g :: r =>
        by_cases h1 : gType g = .ATKEYWORD
        · rcases hra : read_at_rule g r with ⟨e | rule, r2⟩
          · simp only [parse_page_block_go, if_pos h1, hra] at hres
            obtain ⟨nd, na, ne, hP⟩ := ihP r2 decls atrs (errs ++ [e]) res hres
            exact ⟨nd, na, e :: ne, by rw [hP]; simp⟩
          · rcases hpa : parse_at_rule fuel rule atrs errs "@page" with pe | ⟨res2, errs2⟩
            · cases pe with
              | parseError e =>
                simp only [parse_page_block_go, if_pos h1, hra, hpa] at hres
                obtain ⟨nd, na, ne, hP⟩ := ihP r2 decls atrs (errs ++ [e]) res hres
                exact ⟨nd, na, e :: ne, by rw [hP]; simp⟩
              | attributeError =>
                simp only [parse_page_block_go, if_pos h1, hra, hpa] at hres
                exact Option.noConfusion hres
            · obtain ⟨ne0, he⟩ := ihA rule atrs errs "@page" res2 errs2 hpa
              simp only [parse_page_block_go, if_pos h1, hra, hpa] at hres
              obtain ⟨nd, na, ne, hP⟩ := ihP r2 decls (atrs ++ [res2]) errs2 res hres
              exact ⟨nd, res2 :: na, ne0 ++ ne, by rw [hP, he]; simp⟩
        · by_cases h2 : gType g = .S
          · have h2n : ¬gType g ≠ .S := not_not_intro h2
            simp only [parse_page_block_go, if_neg h1, if_neg h2n] at hres
            exact ihP r decls atrs errs res hres
          · have h2p : gType g ≠ .S := h2
            simp only [parse_page_block_go, if_neg h1, if_pos h2p] at hres
            by_cases h3 : ((g :: r).takeWhile
                (fun u => !(gFalsy u || decide (gType u = .semicolon)))).isEmpty
            · rw [if_pos h3] at hres
              exact ihP (((g :: r).dropWhile
                  (fun u => !(gFalsy u || decide (gType u = .semicolon)))).drop 1)
                decls atrs errs res hres
            · rw [if_neg h3] at hres
              rcases hd : parse_declaration ((g :: r).takeWhile
                  (fun u => !(gFalsy u || decide (gType u = .semicolon))))
                with e | d
              · simp only [hd] at hres
                obtain ⟨nd, na, ne, hP⟩ :=
                  ihP (((g :: r).dropWhile
                      (fun u => !(gFalsy u || decide (gType u = .semicolon)))).drop 1)
                    decls atrs (errs ++ [e]) res hres
                exact ⟨nd, na, e :: ne, by rw [hP]; simp⟩
              · simp only [hd] at hres
                obtain ⟨nd, na, ne, hP⟩ :=
                  ihP (((g :: r).dropWhile
                      (fun u => !(gFalsy u || decide (gType u = .semicolon)))).drop 1)
                    (decls ++ [d]) atrs errs res hres
                exact ⟨d :: nd, na, ne, by rw [hP]; simp⟩

/-- C2: errors are additive and siblings survive, except for one crash.
(1) A declaration list yields exactly the successfully parsed parts as
declarations and exactly one error per failing part, independently of the
other parts; (2) a ruleset whose parsing fails is dropped: the statement
loop continues on the remaining tokens with the rule list unchanged and the
error appended; (3) likewise for an at-rule that reads correctly and fails
with a (caught) ParseError; (4) whenever the statement loop completes, its
result extends the incoming rule and error accumulators; but (5) "parsing
always continues to the end of the input" fails: an `@media` rule with
neither media types nor a block makes the source construct
`ParseError(rule.body=None, ...)`, whose `__init__` raises an uncaught
AttributeError, so on the source `@media;` the whole parse aborts and no
Stylesheet is produced. -/
theorem c2_error_recovery :
    (∀ parts : List (List GTok),
      pdlGo parts =
        (parts.filterMap (fun p => match parse_declaration p with
           | .ok d => some d | .error _ => none),
         parts.filterMap (fun p => match parse_declaration p with
           | .ok _ => none | .error e => some e))) ∧
    (∀ (fuel : Nat) (ctx : String) (g : GTok) (r : List GTok)
        (rules : List Rule) (errs : List ParseErr) (e : ParseErr) (r2 : List GTok),
      ¬(gType g = .S ∨ gType g = .CDO ∨ gType g = .CDC) →
      ¬gType g = .ATKEYWORD →
      parse_ruleset g r = (.error e, r2) →
      parse_rules_go (fuel + 1) ctx (g :: r) rules errs =
        parse_rules_go fuel ctx r2 rules (errs ++ [e])) ∧
    (∀ (fuel : Nat) (ctx : String) (g : GTok) (r : List GTok)
        (rules : List Rule) (errs : List ParseErr) (rule : AtRuleU)
        (r2 : List GTok) (e : ParseErr),
      ¬(gType g = .S ∨ gType g = .CDO ∨ gType g = .CDC) →
      gType g = .ATKEYWORD →
      read_at_rule g r = (.ok rule, r2) →
      parse_at_rule fuel rule rules errs ctx = .error (.parseError e) →
      parse_rules_go (fuel + 1) ctx (g :: r) rules errs =
        parse_rules_go fuel ctx r2 rules (errs ++ [e])) ∧
    (∀ (fuel : Nat) (ctx : String) (toks : List GTok) (rules : List Rule)
        (errs : List ParseErr) (res : List Rule × List ParseErr),
      parse_rules_go fuel ctx toks rules errs = some res →
      ∃ newRules newErrs, res = (rules ++ newRules, errs ++ newErrs)) ∧
    (parse_at_rule 1 ⟨"@media".toList, [], none, 1, 1⟩ [] [] "stylesheet" =
        .error .attributeError ∧
      parse_stylesheet "@media;".toList none = none) := by
  refine ⟨?_, ?_, ?_, ?_, rfl, rfl⟩
  · intro parts
    induction parts with
    | nil => rfl
    | cons p ps ih =>
      rcases hd : parse_declaration p with e | d <;>
        simp [pdlGo, List.filterMap_cons, hd, ih]
  · intro fuel ctx g r rules errs e r2 h1 h2 h3
    simp only [parse_rules_go, if_neg h1, if_neg h2, h3]
  · intro fuel ctx g r rules errs rule r2 e h1 h2 hra hpa
    simp only [parse_rules_go, if_neg h1, if_pos h2, hra, hpa]
  · exact fun fuel ctx toks rules errs res h => (parse_acc fuel).1 ctx toks rules errs res h

/-- A lone closing brace, as a flat token. -/
def gRB : GTok := .tok ⟨.rbrace, [rbraceChar], .ofStr [rbraceChar], none, 1, 1⟩

/-- An `@foo` at-keyword token. -/
def gAtFoo : GTok := .tok ⟨.ATKEYWORD, '@' :: "foo".toList, .ofStr ('@' :: "foo".toList), none, 1, 1⟩

/-- A `;` token. -/
def gSemiTok : GTok := .tok ⟨.semicolon, [';'], .ofStr [';'], none, 1, 5⟩

/-- Witness for c2_error_recovery: a ruleset without a declaration block and
an unknown at-rule are each dropped with exactly one appended error, and a
completed loop extends its accumulators. -/
theorem c2_error_recovery_witness :
    parse_rules_go 1 "stylesheet" [gRB] [] [] =
      parse_rules_go 0 "stylesheet" [] [] ([] ++ [gErr gRB "no declaration block found for ruleset"]) ∧
    parse_rules_go 2 "stylesheet" [gAtFoo, gSemiTok] [] [] =
      parse_rules_go 1 "stylesheet" [] [] ([] ++ [⟨1, 1, "unknown at-rule in stylesheet context: @foo"⟩]) ∧
    (∃ nr ne, (([] : List Rule), ([] : List ParseErr)) = ([] ++ nr, [] ++ ne)) :=
  ⟨c2_error_recovery.2.1 0 "stylesheet" gRB [] [] []
      (gErr gRB "no declaration block found for ruleset") [] (by decide) (by decide) rfl,
   c2_error_recovery.2.2.1 1 "stylesheet" gAtFoo [gSemiTok] [] []
      ⟨"@foo".toList, [], none, 1, 1⟩ [] ⟨1, 1, "unknown at-rule in stylesheet context: @foo"⟩
      (by decide) (by decide) rfl rfl,
   c2_error_recovery.2.2.2.1 0 "stylesheet" [] [] [] ([], []) rfl⟩

/-! ### C3: `@charset` prefix removal -/

/-- `@charset` followed by a tab instead of a single space. -/
def charsetTabSrc : List Char := "@charset\t\"x\";".toList

/-- A well-formed `@charset` prefix followed by an `@import` rule. -/
def charsetOkSrc : List Char := "@charset \"ascii\"; @import \"foo.css\";".toList

/-- C3 (amended): (1) the four-token prefix is dropped exactly when it is
ATKEYWORD `@charset`, a whitespace token whose value is a single space,
a double-quoted STRING and `;`; (2) with a truthy (non-empty) encoding
`parse_stylesheet` parses the pruned stream; (3) with encoding `None` and
(4) with the falsy encoding `""` the result has the same rules and errors
as with no encoding; (5) on a valid prefix with a truthy encoding the
`@charset` rule appears neither in the rules nor in the errors, while the
same source without an encoding reports
`mis-placed or malformed @charset rule`. -/
theorem c3_charset_removal :
    (∀ (a sp st sc : GTok) (rest : List GTok),
      remove_at_charset (a :: sp :: st :: sc :: rest) =
        if gType a = .ATKEYWORD ∧ gType sp = .S ∧ gType st = .STRING ∧
            gType sc = .semicolon ∧ gValue a = some (.ofStr "@charset".toList) ∧
            gValue sp = some (.ofStr [' ']) ∧ (gAsCss st).head? = some '"' then
          rest
        else a :: sp :: st :: sc :: rest) ∧
    (∀ (s : List Char) (e : String), e ≠ "" →
      parse_stylesheet s (some e) =
        (parse_rules_go (gsizeList (remove_at_charset (tokenize_grouped s)) + 1)
            "stylesheet" (remove_at_charset (tokenize_grouped s)) [] []).map
          (fun p => ⟨p.1, p.2, some e⟩)) ∧
    (∀ s : List Char,
      parse_stylesheet s none =
        (parse_rules_go (gsizeList (tokenize_grouped s) + 1)
            "stylesheet" (tokenize_grouped s) [] []).map
          (fun p => ⟨p.1, p.2, none⟩)) ∧
    (∀ s : List Char,
      (parse_stylesheet s (some "")).map Stylesheet.rules =
        (parse_stylesheet s none).map Stylesheet.rules ∧
      (parse_stylesheet s (some "")).map Stylesheet.errors =
        (parse_stylesheet s none).map Stylesheet.errors) ∧
    (parse_stylesheet charsetOkSrc (some "utf8") =
        some ⟨[.importR (.ofStr "foo.css".toList) ["all".toList] 1 19], [],
          some "utf8"⟩ ∧
      parse_stylesheet charsetOkSrc none =
        some ⟨[.importR (.ofStr "foo.css".toList) ["all".toList] 1 19],
          [⟨1, 1, "mis-placed or malformed @charset rule"⟩], none⟩) := by
  refine ⟨fun a sp st sc rest => rfl, ?_, fun s => rfl, ?_, rfl, rfl⟩
  · intro s e he
    simp only [parse_stylesheet, if_pos he]
  · intro s
    constructor <;>
      rcases h : parse_rules_go (gsizeList (tokenize_grouped s) + 1) "stylesheet"
          (tokenize_grouped s) [] [] with _ | p <;>
        simp [parse_stylesheet, h]

/-- Witness for c3_charset_removal on the empty stylesheet with a truthy
encoding. -/
theorem c3_charset_removal_witness :
    parse_stylesheet [] (some "utf8") =
      (parse_rules_go (gsizeList (remove_at_charset (tokenize_grouped [])) + 1)
          "stylesheet" (remove_at_charset (tokenize_grouped [])) [] []).map
        (fun p => ⟨p.1, p.2, some "utf8"⟩) :=
  c3_charset_removal.2.1 [] "utf8" (by decide)

/-- Counterexample to C3 as stated: a stream that begins with ATKEYWORD
`@charset`, a whitespace token, a double-quoted STRING and `;`, parsed with
a non-None encoding — yet the prefix is not consumed (the whitespace value
is a tab, not the single space the code demands) and the `@charset` rule
surfaces as an error. -/
theorem c3_charset_removal_counterexample :
    (tokenize_grouped charsetTabSrc).map gType =
      [.ATKEYWORD, .S, .STRING, .semicolon] ∧
    (tokenize_grouped charsetTabSrc).head?.map gValue =
      some (some (.ofStr "@charset".toList)) ∧
    ((tokenize_grouped charsetTabSrc).drop 2).head?.map (fun t => (gAsCss t).head?) =
      some (some '"') ∧
    parse_stylesheet charsetTabSrc (some "utf8") =
      some ⟨[], [⟨1, 1, "mis-placed or malformed @charset rule"⟩], some "utf8"⟩ :=
  ⟨rfl, rfl, rfl, rfl⟩

/-! ### C4: the `@import` rule -/

/-- A `"foo.css"` STRING token. -/
def gStrFoo : GTok := .tok ⟨.STRING, "\"foo.css\"".toList, .ofStr "foo.css".toList, none, 1, 9⟩

/-- An empty `{}` block container. -/
def gBlockTok : GTok := .cont .lbrace [lbraceChar] [rbraceChar] [] 1 19

/-- C4: `parse_at_rule` on an `@import` rule.  (1) outside `stylesheet`
context the rule errors; (2) `findBadPrev` finds a blocking previous rule
exactly when not every previous rule is `@charset` or `@import`; (3) a
blocking previous rule makes the rule error at that rule's position; (4) an
empty head and (5) a head whose first token is neither URI nor STRING give
the `expected URI or STRING` errors; (6) a `{` body errors with
`expected \x27;\x27, got a block`; (7) a URI/STRING-only head with no body
yields an ImportRule with media `[\x22all\x22]` and the errors unchanged. -/
theorem c4_import_rule :
    (∀ (fuel : Nat) (rule : AtRuleU) (prev : List Rule) (errs : List ParseErr)
        (ctx : String),
      rule.at_keyword = "@import".toList → ctx ≠ "stylesheet" →
      parse_at_rule (fuel + 1) rule prev errs ctx =
        .error (.parseError ⟨rule.line, rule.column,
          "@import rule not allowed in " ++ ctx⟩)) ∧
    (∀ rules : List Rule, findBadPrev rules = none ↔
      ∀ r ∈ rules, atKeywordOf r = some "@charset" ∨ atKeywordOf r = some "@import") ∧
    (∀ (fuel : Nat) (rule : AtRuleU) (prev : List Rule) (errs : List ParseErr)
        (pr : Rule),
      rule.at_keyword = "@import".toList →
      findBadPrev prev = some pr →
      parse_at_rule (fuel + 1) rule prev errs "stylesheet" =
        .error (.parseError ⟨ruleLine pr, ruleCol pr,
          "@import rule not allowed after " ++ prevDesc pr⟩)) ∧
    (∀ (fuel : Nat) (rule : AtRuleU) (prev : List Rule) (errs : List ParseErr),
      rule.at_keyword = "@import".toList → findBadPrev prev = none →
      rule.head = [] →
      parse_at_rule (fuel + 1) rule prev errs "stylesheet" =
        .error (.parseError ⟨rule.line, rule.column,
          "expected URI or STRING for @import rule"⟩)) ∧
    (∀ (fuel : Nat) (rule : AtRuleU) (prev : List Rule) (errs : List ParseErr)
        (h0 : GTok) (ht : List GTok),
      rule.at_keyword = "@import".toList → findBadPrev prev = none →
      rule.head = h0 :: ht →
      gType h0 ≠ .URI → gType h0 ≠ .STRING →
      parse_at_rule (fuel + 1) rule prev errs "stylesheet" =
        .error (.parseError ⟨rule.line, rule.column,
          "expected URI or STRING for @import rule, got " ++ typeName (gType h0)⟩)) ∧
    (∀ (fuel : Nat) (rule : AtRuleU) (prev : List Rule) (errs : List ParseErr)
        (h0 b : GTok),
      rule.at_keyword = "@import".toList → findBadPrev prev = none →
      rule.head = [h0] → gType h0 = .URI ∨ gType h0 = .STRING →
      rule.body = some b →
      parse_at_rule (fuel + 1) rule prev errs "stylesheet" =
        .error (.parseError (gErr b "expected \x27;\x27, got a block"))) ∧
    (∀ (fuel : Nat) (rule : AtRuleU) (prev : List Rule) (errs : List ParseErr)
        (h0 : GTok),
      rule.at_keyword = "@import".toList → findBadPrev prev = none →
      rule.head = [h0] → gType h0 = .URI ∨ gType h0 = .STRING →
      rule.body = none →
      parse_at_rule (fuel + 1) rule prev errs "stylesheet" =
        .ok (.importR ((gValue h0).getD (.ofStr [])) ["all".toList]
          rule.line rule.column, errs)) := by
  refine ⟨?_, ?_, ?_, ?_, ?_, ?_, ?_⟩
  · intro fuel rule prev errs ctx hkw hctx
    have hp : ¬(rule.at_keyword = "@page".toList) := by rw [hkw]; decide
    have hm2 : ¬(rule.at_keyword = "@media".toList) := by rw [hkw]; decide
    simp [parse_at_rule, hp, hm2, hkw, hctx]
  · intro rules
    induction rules with
    | nil => simp [findBadPrev]
    | cons r rs ih =>
      by_cases h : atKeywordOf r = some "@charset" ∨ atKeywordOf r = some "@import"
      · simp [findBadPrev, h, ih, List.forall_mem_cons]
      · simp [findBadPrev, h, List.forall_mem_cons]
  · intro fuel rule prev errs pr hkw hprev
    have hp : ¬(rule.at_keyword = "@page".toList) := by rw [hkw]; decide
    have hm2 : ¬(rule.at_keyword = "@media".toList) := by rw [hkw]; decide
    simp [parse_at_rule, hp, hm2, hkw, hprev]
  · intro fuel rule prev errs hkw hprev hhead
    have hp : ¬(rule.at_keyword = "@page".toList) := by rw [hkw]; decide
    have hm2 : ¬(rule.at_keyword = "@media".toList) := by rw [hkw]; decide
    simp [parse_at_rule, hp, hm2, hkw, hprev, hhead]
  · intro fuel rule prev errs h0 ht hkw hprev hhead hty1 hty2
    have hp : ¬(rule.at_keyword = "@page".toList) := by rw [hkw]; decide
    have hm2 : ¬(rule.at_keyword = "@media".toList) := by rw [hkw]; decide
    simp [parse_at_rule, hp, hm2, hkw, hprev, hhead, hty1, hty2]
  · intro fuel rule prev errs h0 b hkw hprev hhead hty hbody
    have hp : ¬(rule.at_keyword = "@page".toList) := by rw [hkw]; decide
    have hm2 : ¬(rule.at_keyword = "@media".toList) := by rw [hkw]; decide
    rcases hty with h | h <;>
      simp [parse_at_rule, hp, hm2, hkw, hprev, hhead, hbody, h]
  · intro fuel rule prev errs h0 hkw hprev hhead hty hbody
    have hp : ¬(rule.at_keyword = "@page".toList) := by rw [hkw]; decide
    have hm2 : ¬(rule.at_keyword = "@media".toList) := by rw [hkw]; decide
    rcases hty with h | h <;>
      simp [parse_at_rule, hp, hm2, hkw, hprev, hhead, hbody, h]

/-- Witness for c4_import_rule: a URI-free STRING head with no body parses
to an ImportRule with media all; the same head with a `\x7b` body errors. -/
theorem c4_import_rule_witness :
    parse_at_rule 1 ⟨"@import".toList, [gStrFoo], none, 1, 1⟩ [] [] "stylesheet" =
      .ok (.importR ((gValue gStrFoo).getD (.ofStr [])) ["all".toList] 1 1, []) ∧
    parse_at_rule 1 ⟨"@import".toList, [gStrFoo], some gBlockTok, 1, 1⟩ [] [] "stylesheet" =
      .error (.parseError (gErr gBlockTok "expected \x27;\x27, got a block")) :=
  ⟨c4_import_rule.2.2.2.2.2.2 0 ⟨"@import".toList, [gStrFoo], none, 1, 1⟩ [] [] gStrFoo
      rfl rfl rfl (Or.inr rfl) rfl,
   c4_import_rule.2.2.2.2.2.1 0 ⟨"@import".toList, [gStrFoo], some gBlockTok, 1, 1⟩ [] []
      gStrFoo gBlockTok rfl rfl rfl (Or.inr rfl) rfl⟩

/-! ### C5: `@page` selectors -/

/-- A `:` token. -/
def gColonTok : GTok := .tok ⟨.colon, [':'], .ofStr [':'], none, 1, 7⟩

/-- A `left` IDENT token. -/
def gIdentLeft : GTok := .tok ⟨.IDENT, "left".toList, .ofStr "left".toList, none, 1, 8⟩

/-- A token whose value is the string `v` has `gValStr` equal to `v`. -/
lemma gValStr_of_gValue {g : GTok} {v : List Char}
    (h : gValue g = some (.ofStr v)) : gValStr g = v := by
  cases g with
  | tok t =>
    simp only [gValue, Option.some.injEq] at h
    simp [gValStr, h, tvStr]
  | cont ty s e c l col => simp [gValue] at h
  | fn ty s e n c l col => simp [gValue] at h

/-- C5 (amended): `parse_page_selector` returns selector `None` with
specificity `(0, 0)` for an empty head, and the pseudo-class with
specificity `(1, 0)` for `:first`, `(0, 1)` for `:left` and `:right` — the
two-integer tuples the source stores verbatim, with no four-tuple padding;
every other head raises `invalid @page selector` at the head's first
token. -/
theorem c5_page_selector :
    parse_page_selector [] = .ok (none, [0, 0]) ∧
    (∀ a b : GTok, gType a = .colon → gType b = .IDENT →
      gValue b = some (.ofStr "first".toList) →
      parse_page_selector [a, b] = .ok (some "first".toList, [1, 0])) ∧
    (∀ a b : GTok, gType a = .colon → gType b = .IDENT →
      gValue b = some (.ofStr "left".toList) →
      parse_page_selector [a, b] = .ok (some "left".toList, [0, 1])) ∧
    (∀ a b : GTok, gType a = .colon → gType b = .IDENT →
      gValue b = some (.ofStr "right".toList) →
      parse_page_selector [a, b] = .ok (some "right".toList, [0, 1])) ∧
    (∀ (a b : GTok) (v : List Char), gType a = .colon → gType b = .IDENT →
      gValue b = some (.ofStr v) →
      v ≠ "first".toList → v ≠ "left".toList → v ≠ "right".toList →
      parse_page_selector [a, b] = .error (gErr a "invalid @page selector")) ∧
    (∀ a b : GTok, ¬(gType a = .colon ∧ gType b = .IDENT) →
      parse_page_selector [a, b] = .error (gErr a "invalid @page selector")) ∧
    (∀ a : GTok, parse_page_selector [a] = .error (gErr a "invalid @page selector")) ∧
    (∀ (a b c : GTok) (r : List GTok),
      parse_page_selector (a :: b :: c :: r) = .error (gErr a "invalid @page selector")) := by
  refine ⟨rfl, ?_, ?_, ?_, ?_, ?_, fun a => rfl, fun a b c r => rfl⟩
  · intro a b ha hb hv
    simp [parse_page_selector, ha, hb, hv, gValStr_of_gValue hv]
  · intro a b ha hb hv
    simp [parse_page_selector, ha, hb, hv, gValStr_of_gValue hv]
  · intro a b ha hb hv
    simp [parse_page_selector, ha, hb, hv, gValStr_of_gValue hv]
  · intro a b v ha hb hv h1 h2 h3
    simp only [parse_page_selector, hv]
    rw [if_pos (⟨ha, hb⟩ : _ ∧ _), if_neg h1, if_neg h2, if_neg h3]
  · intro a b h
    simp [parse_page_selector, h]

/-- Witness for c5_page_selector: `:left` parses with specificity (0, 1). -/
theorem c5_page_selector_witness :
    parse_page_selector [gColonTok, gIdentLeft] = .ok (some "left".toList, [0, 1]) :=
  c5_page_selector.2.2.1 gColonTok gIdentLeft rfl rfl rfl

/-- Counterexample to C5 as stated: the specificity stored for `:first` is
the two-tuple (1, 0), not the four-tuple (0, 0, 1, 0) the claim derives by
prepending two leading zeros. -/
theorem c5_page_selector_counterexample :
    parse_stylesheet "@page :first \x7b\x7d".toList none =
      some ⟨[.pageR (some "first".toList) [1, 0] [] [] 1 1], [], none⟩ ∧
    [1, 0] ≠ [0, 0, 1, 0] :=
  ⟨rfl, by decide⟩

/-! ### C9: CSS 3 color parsing (`color3.py`) -/

/-- A parsed color: an (r, g, b, a) quadruple (floats modelled as exact
rationals) or the `currentColor` marker string. -/
inductive Color3 where
  | rgba (r g b a : ℚ)
  | currentColor
  deriving DecidableEq, Repr

/-- `BASIC_COLOR_KEYWORDS` of color3.py: (keyword, (r, g, b)) with channels in 0..255. -/
def BASIC_COLOR_KEYWORDS : List (List Char × Nat × Nat × Nat) := [
  ("black".toList, 0, 0, 0),
  ("silver".toList, 192, 192, 192),
  ("gray".toList, 128, 128, 128),
  ("white".toList, 255, 255, 255),
  ("maroon".toList, 128, 0, 0),
  ("red".toList, 255, 0, 0),
  ("purple".toList, 128, 0, 128),
  ("fuchsia".toList, 255, 0, 255),
  ("green".toList, 0, 128, 0),
  ("lime".toList, 0, 255, 0),
  ("olive".toList, 128, 128, 0),
  ("yellow".toList, 255, 255, 0),
  ("navy".toList, 0, 0, 128),
  ("blue".toList, 0, 0, 255),
  ("teal".toList, 0, 128, 128),
  ("aqua".toList, 0, 255, 255)
]

/-- `EXTENDED_COLOR_KEYWORDS` of color3.py: (keyword, (r, g, b)) with channels in 0..255. -/
def EXTENDED_COLOR_KEYWORDS : List (List Char × Nat × Nat × Nat) := [
  ("aliceblue".toList, 240, 248, 255),
  ("antiquewhite".toList, 250, 235, 215),
  ("aqua".toList, 0, 255, 255),
  ("aquamarine".toList, 127, 255, 212),
  ("azure".toList, 240, 255, 255),
  ("beige".toList, 245, 245, 220),
  ("bisque".toList, 255, 228, 196),
  ("black".toList, 0, 0, 0),
  ("blanchedalmond".toList, 255, 235, 205),
  ("blue".toList, 0, 0, 255),
  ("blueviolet".toList, 138, 43, 226),
  ("brown".toList, 165, 42, 42),
  ("burlywood".toList, 222, 184, 135),
  ("cadetblue".toList, 95, 158, 160),
  ("chartreuse".toList, 127, 255, 0),
  ("chocolate".toList, 210, 105, 30),
  ("coral".toList, 255, 127, 80),
  ("cornflowerblue".toList, 100, 149, 237),
  ("cornsilk".toList, 255, 248, 220),
  ("crimson".toList, 220, 20, 60),
  ("cyan".toList, 0, 255, 255),
  ("darkblue".toList, 0, 0, 139),
  ("darkcyan".toList, 0, 139, 139),
  ("darkgoldenrod".toList, 184, 134, 11),
  ("darkgray".toList, 169, 169, 169),
  ("darkgreen".toList, 0, 100, 0),
  ("darkgrey".toList, 169, 169, 169),
  ("darkkhaki".toList, 189, 183, 107),
  ("darkmagenta".toList, 139, 0, 139),
  ("darkolivegreen".toList, 85, 107, 47),
  ("darkorange".toList, 255, 140, 0),
  ("darkorchid".toList, 153, 50, 204),
  ("darkred".toList, 139, 0, 0),
  ("darksalmon".toList, 233, 150, 122),
  ("darkseagreen".toList, 143, 188, 143),
  ("darkslateblue".toList, 72, 61, 139),
  ("darkslategray".toList, 47, 79, 79),
  ("darkslategrey".toList, 47, 79, 79),
  ("darkturquoise".toList, 0, 206, 209),
  ("darkviolet".toList, 148, 0, 211),
  ("deeppink".toList, 255, 20, 147),
  ("deepskyblue".toList, 0, 191, 255),
  ("dimgray".toList, 105, 105, 105),
  ("dimgrey".toList, 105, 105, 105),
  ("dodgerblue".toList, 30, 144, 255),
  ("firebrick".toList, 178, 34, 34),
  ("floralwhite".toList, 255, 250, 240),
  ("forestgreen".toList, 34, 139, 34),
  ("fuchsia".toList, 255, 0, 255),
  ("gainsboro".toList, 220, 220, 220),
  ("ghostwhite".toList, 248, 248, 255),
  ("gold".toList, 255, 215, 0),
  ("goldenrod".toList, 218, 165, 32),
  ("gray".toList, 128, 128, 128),
  ("green".toList, 0, 128, 0),
  ("greenyellow".toList, 173, 255, 47),
  ("grey".toList, 128, 128, 128),
  ("honeydew".toList, 240, 255, 240),
  ("hotpink".toList, 255, 105, 180),
  ("indianred".toList, 205, 92, 92),
  ("indigo".toList, 75, 0, 130),
  ("ivory".toList, 255, 255, 240),
  ("khaki".toList, 240, 230, 140),
  ("lavender".toList, 230, 230, 250),
  ("lavenderblush".toList, 255, 240, 245),
  ("lawngreen".toList, 124, 252, 0),
  ("lemonchiffon".toList, 255, 250, 205),
  ("lightblue".toList, 173, 216, 230),
  ("lightcoral".toList, 240, 128, 128),
  ("lightcyan".toList, 224, 255, 255),
  ("lightgoldenrodyellow".toList, 250, 250, 210),
  ("lightgray".toList, 211, 211, 211),
  ("lightgreen".toList, 144, 238, 144),
  ("lightgrey".toList, 211, 211, 211),
  ("lightpink".toList, 255, 182, 193),
  ("lightsalmon".toList, 255, 160, 122),
  ("lightseagreen".toList, 32, 178, 170),
  ("lightskyblue".toList, 135, 206, 250),
  ("lightslategray".toList, 119, 136, 153),
  ("lightslategrey".toList, 119, 136, 153),
  ("lightsteelblue".toList, 176, 196, 222),
  ("lightyellow".toList, 255, 255, 224),
  ("lime".toList, 0, 255, 0),
  ("limegreen".toList, 50, 205, 50),
  ("linen".toList, 250, 240, 230),
  ("magenta".toList, 255, 0, 255),
  ("maroon".toList, 128, 0, 0),
  ("mediumaquamarine".toList, 102, 205, 170),
  ("mediumblue".toList, 0, 0, 205),
  ("mediumorchid".toList, 186, 85, 211),
  ("mediumpurple".toList, 147, 112, 219),
  ("mediumseagreen".toList, 60, 179, 113),
  ("mediumslateblue".toList, 123, 104, 238),
  ("mediumspringgreen".toList, 0, 250, 154),
  ("mediumturquoise".toList, 72, 209, 204),
  ("mediumvioletred".toList, 199, 21, 133),
  ("midnightblue".toList, 25, 25, 112),
  ("mintcream".toList, 245, 255, 250),
  ("mistyrose".toList, 255, 228, 225),
  ("moccasin".toList, 255, 228, 181),
  ("navajowhite".toList, 255, 222, 173),
  ("navy".toList, 0, 0, 128),
  ("oldlace".toList, 253, 245, 230),
  ("olive".toList, 128, 128, 0),
  ("olivedrab".toList, 107, 142, 35),
  ("orange".toList, 255, 165, 0),
  ("orangered".toList, 255, 69, 0),
  ("orchid".toList, 218, 112, 214),
  ("palegoldenrod".toList, 238, 232, 170),
  ("palegreen".toList, 152, 251, 152),
  ("paleturquoise".toList, 175, 238, 238),
  ("palevioletred".toList, 219, 112, 147),
  ("papayawhip".toList, 255, 239, 213),
  ("peachpuff".toList, 255, 218, 185),
  ("peru".toList, 205, 133, 63),
  ("pink".toList, 255, 192, 203),
  ("plum".toList, 221, 160, 221),
  ("powderblue".toList, 176, 224, 230),
  ("purple".toList, 128, 0, 128),
  ("red".toList, 255, 0, 0),
  ("rosybrown".toList, 188, 143, 143),
  ("royalblue".toList, 65, 105, 225),
  ("saddlebrown".toList, 139, 69, 19),
  ("salmon".toList, 250, 128, 114),
  ("sandybrown".toList, 244, 164, 96),
  ("seagreen".toList, 46, 139, 87),
  ("seashell".toList, 255, 245, 238),
  ("sienna".toList, 160, 82, 45),
  ("silver".toList, 192, 192, 192),
  ("skyblue".toList, 135, 206, 235),
  ("slateblue".toList, 106, 90, 205),
  ("slategray".toList, 112, 128, 144),
  ("slategrey".toList, 112, 128, 144),
  ("snow".toList, 255, 250, 250),
  ("springgreen".toList, 0, 255, 127),
  ("steelblue".toList, 70, 130, 180),
  ("tan".toList, 210, 180, 140),
  ("teal".toList, 0, 128, 128),
  ("thistle".toList, 216, 191, 216),
  ("tomato".toList, 255, 99, 71),
  ("turquoise".toList, 64, 224, 208),
  ("violet".toList, 238, 130, 238),
  ("wheat".toList, 245, 222, 179),
  ("white".toList, 255, 255, 255),
  ("whitesmoke".toList, 245, 245, 245),
  ("yellow".toList, 255, 255, 0),
  ("yellowgreen".toList, 154, 205, 50)
]


/-- `SPECIAL_COLOR_KEYWORDS` of color3.py. -/
def SPECIAL_COLOR_KEYWORDS : List (List Char × Color3) :=
  [("currentcolor".toList, .currentColor),
   ("transparent".toList, .rgba 0 0 0 0)]

/-- `COLOR_KEYWORDS`: the special keywords updated with the basic and
extended tables mapped to `(r/255, g/255, b/255, 1)`.  (The Python dict
update lets later entries shadow earlier ones; the keyword lists never
shadow the special keywords and their duplicated entries carry equal
values, so an ordered first-match lookup is equivalent.) -/
def COLOR_KEYWORDS : List (List Char × Color3) :=
  SPECIAL_COLOR_KEYWORDS ++
    (BASIC_COLOR_KEYWORDS ++ EXTENDED_COLOR_KEYWORDS).map
      (fun p => (p.1, .rgba ((p.2.1 : ℚ) / 255) ((p.2.2.1 : ℚ) / 255)
        ((p.2.2.2 : ℚ) / 255) 1))

/-- `parse_color(token)` of color3.py.  The hex-digit class `[\da-f]` under
`re.I` is modelled over ASCII (Python's `re` would additionally admit
non-ASCII decimal digits, which cannot occur in CSS hex colors); `.lower()`
is the ASCII lowering used throughout the tokenizer model. -/
def parse_color (token : GTok) : Option Color3 :=
  if gType token = .IDENT then
    COLOR_KEYWORDS.lookup (asciiLower (gValStr token))
  else if gType token = .HASH then
    match gValStr token with
    | ['#', a, b, c] =>
      if hexChar a && hexChar b && hexChar c then
        some (.rgba ((17 * hexVal a : ℚ) / 255) ((17 * hexVal b : ℚ) / 255)
          ((17 * hexVal c : ℚ) / 255) 1)
      else none
    | ['#', a, b, c, d, e, f] =>
      if hexChar a && hexChar b && hexChar c && hexChar d && hexChar e && hexChar f then
        some (.rgba ((16 * hexVal a + hexVal b : ℚ) / 255)
          ((16 * hexVal c + hexVal d : ℚ) / 255)
          ((16 * hexVal e + hexVal f : ℚ) / 255) 1)
      else none
    | _ => none
  else none

/-- Bounds predicate: every channel of an rgba color lies in [0, 1]. -/
def colorInRange : Color3 → Prop
  | .currentColor => True
  | .rgba r g b a =>
    0 ≤ r ∧ r ≤ 1 ∧ 0 ≤ g ∧ g ≤ 1 ∧ 0 ≤ b ∧ b ≤ 1 ∧ 0 ≤ a ∧ a ≤ 1

/-- A channel value in 0..255 divided by 255 lies in [0, 1]. -/
lemma chan_bounds {n : Nat} (hn : n ≤ 255) :
    0 ≤ (n : ℚ) / 255 ∧ (n : ℚ) / 255 ≤ 1 :=
  ⟨div_nonneg (Nat.cast_nonneg n) (by norm_num),
   (div_le_one (by norm_num)).mpr (by exact_mod_cast hn)⟩

/-- An IDENT token with the given text. -/
def gIdentTok (s : String) : GTok := .tok ⟨.IDENT, s.toList, .ofStr s.toList, none, 1, 1⟩

/-- A HASH token with the given text. -/
def gHashTok (s : String) : GTok := .tok ⟨.HASH, s.toList, .ofStr s.toList, none, 1, 1⟩

set_option maxRecDepth 8000 in
/-- C9: `parse_color` (1) looks an IDENT up in the fixed keyword table by
its lower-cased value; (2) every table entry is `currentColor` or an rgba
quadruple with each component in [0, 1]; (3) `transparent` maps to
(0, 0, 0, 0), `currentcolor` to the marker, and the lookup is
case-insensitive; (4) a HASH of `#` and three hex digits yields each
doubled digit read as hex over 255, alpha 1; (5) six hex digits read
pairwise over 255, alpha 1; (6) any other token type yields none, and
(7) so do malformed hashes — no exception is possible (the function is
total by construction). -/
theorem c9_parse_color :
    (∀ t : GTok, gType t = .IDENT →
      parse_color t = COLOR_KEYWORDS.lookup (asciiLower (gValStr t))) ∧
    (∀ p ∈ COLOR_KEYWORDS, colorInRange p.2) ∧
    (parse_color (gIdentTok "TRANSPARENT") = some (.rgba 0 0 0 0) ∧
      parse_color (gIdentTok "currentColor") = some .currentColor ∧
      parse_color (gIdentTok "red") = some (.rgba 1 0 0 1) ∧
      parse_color (gIdentTok "navy") = some (.rgba 0 0 (128 / 255) 1)) ∧
    (∀ (t : GTok) (a b c : Char), gType t = .HASH →
      gValStr t = ['#', a, b, c] →
      hexChar a = true → hexChar b = true → hexChar c = true →
      parse_color t = some (.rgba ((17 * hexVal a : ℚ) / 255)
        ((17 * hexVal b : ℚ) / 255) ((17 * hexVal c : ℚ) / 255) 1)) ∧
    (∀ (t : GTok) (a b c d e f : Char), gType t = .HASH →
      gValStr t = ['#', a, b, c, d, e, f] →
      hexChar a = true → hexChar b = true → hexChar c = true →
      hexChar d = true → hexChar e = true → hexChar f = true →
      parse_color t = some (.rgba ((16 * hexVal a + hexVal b : ℚ) / 255)
        ((16 * hexVal c + hexVal d : ℚ) / 255)
        ((16 * hexVal e + hexVal f : ℚ) / 255) 1)) ∧
    (∀ t : GTok, gType t ≠ .IDENT → gType t ≠ .HASH → parse_color t = none) ∧
    (parse_color (gHashTok "#ab") = none ∧
      parse_color (gHashTok "#abcd") = none ∧
      parse_color (gHashTok "#xyz") = none ∧
      parse_color (gHashTok "#12345g") = none) := by
  refine ⟨?_, ?_, ⟨rfl, rfl, ?_, ?_⟩,
    ?_, ?_, ?_, ⟨rfl, rfl, rfl, rfl⟩⟩
  · intro t h
    simp [parse_color, h]
  · intro p hp
    simp only [COLOR_KEYWORDS] at hp
    rcases List.mem_append.mp hp with h | h
    · simp only [SPECIAL_COLOR_KEYWORDS, List.mem_cons, List.not_mem_nil,
        or_false] at h
      rcases h with rfl | rfl
      · simp [colorInRange]
      · norm_num [colorInRange]
    · obtain ⟨q, hq, rfl⟩ := List.mem_map.mp h
      have hall : ∀ r ∈ BASIC_COLOR_KEYWORDS ++ EXTENDED_COLOR_KEYWORDS,
          r.2.1 ≤ 255 ∧ r.2.2.1 ≤ 255 ∧ r.2.2.2 ≤ 255 := by decide
      obtain ⟨h1, h2, h3⟩ := hall q hq
      exact ⟨(chan_bounds h1).1, (chan_bounds h1).2, (chan_bounds h2).1,
        (chan_bounds h2).2, (chan_bounds h3).1, (chan_bounds h3).2,
        by norm_num, by norm_num⟩
  · have hred : parse_color (gIdentTok "red") =
        some (.rgba (((255 : Nat) : ℚ) / 255) (((0 : Nat) : ℚ) / 255)
          (((0 : Nat) : ℚ) / 255) 1) := rfl
    rw [hred]
    norm_num
  · have hnavy : parse_color (gIdentTok "navy") =
        some (.rgba (((0 : Nat) : ℚ) / 255) (((0 : Nat) : ℚ) / 255)
          (((128 : Nat) : ℚ) / 255) 1) := rfl
    rw [hnavy]
    norm_num
  · intro t a b c hty hv ha hb hc
    have hni : gType t ≠ .IDENT := by rw [hty]; decide
    simp [parse_color, hni, hty, hv, ha, hb, hc]
  · intro t a b c d e f hty hv ha hb hc hd he hf
    have hni : gType t ≠ .IDENT := by rw [hty]; decide
    simp [parse_color, hni, hty, hv, ha, hb, hc, hd, he, hf]
  · intro t h1 h2
    simp [parse_color, h1, h2]

/-- Witness for c9_parse_color: the IDENT, three-digit, six-digit and
other-token conjuncts at concrete tokens. -/
theorem c9_parse_color_witness :
    parse_color (gIdentTok "Navy") =
      COLOR_KEYWORDS.lookup (asciiLower (gValStr (gIdentTok "Navy"))) ∧
    parse_color (gHashTok "#1a2") = some (.rgba ((17 * hexVal '1' : ℚ) / 255)
      ((17 * hexVal 'a' : ℚ) / 255) ((17 * hexVal '2' : ℚ) / 255) 1) ∧
    parse_color (gHashTok "#1a2B3c") = some (.rgba ((16 * hexVal '1' + hexVal 'a' : ℚ) / 255)
      ((16 * hexVal '2' + hexVal 'B' : ℚ) / 255)
      ((16 * hexVal '3' + hexVal 'c' : ℚ) / 255) 1) ∧
    parse_color gSemiTok = none :=
  ⟨c9_parse_color.1 (gIdentTok "Navy") rfl,
   c9_parse_color.2.2.2.1 (gHashTok "#1a2") '1' 'a' '2' rfl rfl rfl rfl rfl,
   c9_parse_color.2.2.2.2.1 (gHashTok "#1a2B3c") '1' 'a' '2' 'B' '3' 'c'
     rfl rfl rfl rfl rfl rfl rfl rfl,
   c9_parse_color.2.2.2.2.2.1 gSemiTok (by decide) (by decide)⟩

/-! ### C10: case-sensitive `!important` -/

/-- A declaration list with an upper-cased `!IMPORTANT` marker. -/
def impUpperSrc : List Char := "a:1 !IMPORTANT; b:2".toList

/-- An upper-cased property name with a lower-cased `!important`. -/
def impLowerSrc : List Char := "A:1 !important".toList

/-- An upper-cased `@IMPORT` at-keyword. -/
def impAtSrc : List Char := "@IMPORT \"foo.css\";".toList

/-- C10: the `!important` marker is matched case-sensitively.  (1) whenever
the last value token is an IDENT whose value is anything but the exact
string `important`, `parse_value_priority` returns the value unchanged with
priority None; (2) end to end, `a:1 !IMPORTANT; b:2` parses to two
declarations with priority None, the first keeping the `!` DELIM and the
`IMPORTANT` IDENT inside its value; (3) by contrast property names
(`A:1 !important`) and (4) at-keywords (`@IMPORT`) are lower-cased and
matched case-insensitively. -/
theorem c10_important_case_sensitive :
    (∀ (toks rrest : List GTok) (lastTok : GTok) (v : List Char),
      toks.reverse = lastTok :: rrest →
      gType lastTok = .IDENT → gValue lastTok = some (.ofStr v) →
      v ≠ "important".toList →
      parse_value_priority toks = .ok (toks, none)) ∧
    ((parse_style_attr impUpperSrc).1.map (fun d => (d.name, d.priority)) =
      [("a".toList, none), ("b".toList, none)] ∧
     (parse_style_attr impUpperSrc).1.head?.map (fun d => (gContent d.value).map gType) =
      some [.NUMBER, .S, .DELIM, .IDENT] ∧
     (parse_style_attr impUpperSrc).1.head?.map (fun d => (gContent d.value).map gValue) =
      some [some (.ofInt 1), some (.ofStr [' ']), some (.ofStr ['!']),
        some (.ofStr "IMPORTANT".toList)] ∧
     (parse_style_attr impUpperSrc).2 = []) ∧
    ((parse_style_attr impLowerSrc).1.map (fun d => (d.name, d.priority)) =
      [("a".toList, some "important")]) ∧
    (parse_stylesheet impAtSrc none =
       some ⟨[.importR (.ofStr "foo.css".toList) ["all".toList] 1 1], [], none⟩) := by
  refine ⟨?_, ⟨rfl, rfl, rfl, rfl⟩, rfl, rfl⟩
  intro toks rrest lastTok v hrev hty hv hne
  simp [parse_value_priority, hrev, hty, hv]
  intro hvv
  exact absurd hvv hne

/-- Witness for c10_important_case_sensitive: a value ending in the IDENT
`left` keeps priority None. -/
theorem c10_important_case_sensitive_witness :
    parse_value_priority [gIdentLeft] = .ok ([gIdentLeft], none) :=
  c10_important_case_sensitive.1 [gIdentLeft] [] gIdentLeft "left".toList
    rfl rfl rfl (by decide)
